import Mathlib

/-!
Verification of the booking admission / waitlist-promotion core of the
multi-event booking platform.

The definitions below are a shallow embedding of the TypeScript source:

* `decideStatus`            — the admission decision (src/collections/Users.ts:554,
                              src/endpoints/bookEvent.ts:67)
* `bookingBeforeChange`     — the beforeChange hook on bookings
                              (src/collections/Users.ts:515-560)
* `promoteOldestWaitlist`   — waitlist promotion (src/collections/Users.ts:453-512)
* `bookingAfterChange…`     — the afterChange hook (src/collections/Users.ts:564-655)
* `bookingAfterDelete`      — the afterDelete hook (src/collections/Users.ts:659-679)
* `bookingAfterOperation…`  — audit-log writes (src/collections/Users.ts:685-745)
* `retry`, `createNotificationSafe`
                            — side-effect retry policy (src/collections/Users.ts:407-446)
* `bookEvent`               — the SubmitBooking endpoint (src/endpoints/bookEvent.ts)
* `cancelBooking`           — BookingService.cancel (src/services/NotificationService.ts:299-311)
                              composed with the update hooks

Record identifiers and tenant identifiers are modelled as `Nat` (the source
uses opaque string/number ids; only equality is ever used).  Timestamps are
modelled as a logical clock (`Nat`), which is all the source uses them for
(ordering by `createdAt`).
-/

/-- Booking status: the closed enumeration `confirmed | waitlisted | canceled`
from the bookings collection select field. -/
inductive BStatus
  | confirmed
  | waitlisted
  | canceled
deriving DecidableEq, Repr

/-- User roles from the users collection select field. -/
inductive Role
  | attendee
  | organizer
  | admin
  | superAdmin
deriving DecidableEq, Repr

/-- An event record: identifier, tenant, capacity (events collection). -/
structure EventRec where
  id : Nat
  tenant : Nat
  capacity : Nat
deriving DecidableEq, Repr

/-- An authenticated user (`req.user`): id, optional tenant relation, role. -/
structure UserRec where
  id : Nat
  tenant : Option Nat
  role : Role
deriving DecidableEq, Repr

/-- A booking record as persisted in the bookings collection. -/
structure BookingRec where
  id : Nat
  event : Nat
  user : Nat
  tenant : Nat
  status : BStatus
  createdAt : Nat
deriving DecidableEq, Repr

/-- Notification types written by the booking hooks. -/
inductive NotifType
  | booking_confirmed
  | waitlisted
  | booking_canceled
  | waitlist_promoted
deriving DecidableEq, Repr

/-- A notification record.  The booking reference is optional: the
degraded-write path of `createNotificationSafe` omits it. -/
structure NotificationRec where
  user : Nat
  booking : Option Nat
  ntype : NotifType
  title : String
  message : String
  tenant : Nat
  read : Bool
deriving DecidableEq, Repr

/-- Audit-log actions.  `cancel_unconfirmed` is produced by
`bookingAfterOperation` on deletion of an unconfirmed booking even though it
is absent from the booking-logs schema (see `bookingLogActionOptions`). -/
inductive LogAction
  | create_request
  | auto_waitlist
  | auto_confirm
  | promote_from_waitlist
  | cancel_confirmed
  | cancel_unconfirmed
deriving DecidableEq, Repr

/-- A booking-logs record. -/
structure LogEntry where
  booking : Nat
  event : Nat
  user : Nat
  action : LogAction
  note : String
  tenant : Nat
deriving DecidableEq, Repr

/-- The action values admitted by the booking-logs schema: the select options
of src/schemas/fields/bookingLogsFields.ts:11-17 and the zod enum
src/schemas/zod/bookingLogs.ts:3.  `cancel_unconfirmed` is not among them,
so a write carrying it fails field validation and persists nothing. -/
def bookingLogActionOptions : List LogAction :=
  [LogAction.create_request, LogAction.auto_waitlist, LogAction.auto_confirm,
   LogAction.promote_from_waitlist, LogAction.cancel_confirmed]

/-- The persisted state: events, bookings, notifications, booking-logs, a
fresh-id counter and a logical clock.  `promoterCalls` is ghost
instrumentation recording each invocation of the waitlist promoter with its
`(eventId, tenantId)` arguments; it affects no other component. -/
structure SysState where
  events : List EventRec
  bookings : List BookingRec
  notifications : List NotificationRec
  logs : List LogEntry
  nextId : Nat
  now : Nat
  promoterCalls : List (Nat × Nat)
deriving DecidableEq, Repr

/-- The Event Capacity Gate: src/collections/Users.ts:554
`data.status = confirmedCount < capacity ? "confirmed" : "waitlisted"`. -/
def decideStatus (confirmedCount capacity : Nat) : BStatus :=
  if confirmedCount < capacity then BStatus.confirmed else BStatus.waitlisted

/-- The same decision as written in the endpoint, src/endpoints/bookEvent.ts:67
`const status = confirmedCount >= capacity ? "waitlisted" : "confirmed"`. -/
def decideStatusEndpoint (confirmedCount capacity : Nat) : BStatus :=
  if confirmedCount ≥ capacity then BStatus.waitlisted else BStatus.confirmed

/-! ## Storage queries

Shallow embedding of the `payload.find` / `payload.findByID` queries issued
by the booking code.  The stores are lists in insertion order; a find with
`sort: "createdAt"` is modelled as a stable selection (first stored record
among those with minimal `createdAt`), since the query supplies no secondary
sort key. -/

/-- `payload.findByID({ collection: "events", id })`. -/
def findEventById (es : List EventRec) (eid : Nat) : Option EventRec :=
  es.find? (fun e => e.id == eid)

/-- The confirmed-count query of the beforeChange hook
(src/collections/Users.ts:539-549): bookings with
`event = eid`, `status = "confirmed"`, `tenant = t`. -/
def countConfirmedTenant (bs : List BookingRec) (eid t : Nat) : Nat :=
  (bs.filter (fun b => b.event == eid && b.status == BStatus.confirmed && b.tenant == t)).length

/-- The total number of Confirmed bookings of an event, over every tenant:
the quantity bounded by the capacity-safety invariant of the spec (and the
count the endpoint itself computes at src/endpoints/bookEvent.ts:53-62,
which carries no tenant filter). -/
def confirmedCountAll (bs : List BookingRec) (eid : Nat) : Nat :=
  (bs.filter (fun b => b.event == eid && b.status == BStatus.confirmed)).length

/-- The duplicate-booking query of the endpoint
(src/endpoints/bookEvent.ts:37-46): any booking with `event = eid` and
`user = uid`, with no filter on status. -/
def hasAnyBooking (bs : List BookingRec) (eid uid : Nat) : Bool :=
  bs.any (fun b => b.event == eid && b.user == uid)

/-- Candidate filter of the waitlist-promotion query
(src/collections/Users.ts:455-462): `event = eid`, `status = "waitlisted"`,
`tenant = t`. -/
def isWaitlistCandidate (eid t : Nat) (b : BookingRec) : Bool :=
  b.event == eid && b.status == BStatus.waitlisted && b.tenant == t

/-- Selection step for `sort: "createdAt", limit: 1`: keep the earlier
`createdAt`, preferring the record already held on ties (stability). -/
def pickOldest : Option BookingRec → BookingRec → Option BookingRec
  | none, b => some b
  | some a, b => if b.createdAt < a.createdAt then some b else some a

/-- The oldest waitlisted booking for `(eid, t)`:
`payload.find({ where: {event, status: waitlisted, tenant}, sort: "createdAt", limit: 1 })`
(src/collections/Users.ts:454-466). -/
def oldestWaitlisted (bs : List BookingRec) (eid t : Nat) : Option BookingRec :=
  (bs.filter (isWaitlistCandidate eid t)).foldl pickOldest none

/-- `payload.db.updateOne({ collection: "bookings", id, data: { status } })`:
a direct status mutation that bypasses hooks
(src/collections/Users.ts:472-476); also the storage effect of
`payload.update` on one booking. -/
def updateBookingStatus (bs : List BookingRec) (bid : Nat) (st : BStatus) : List BookingRec :=
  bs.map (fun b => if b.id == bid then { b with status := st } else b)

/-- `payload.findByID` on bookings. -/
def findBookingById (bs : List BookingRec) (bid : Nat) : Option BookingRec :=
  bs.find? (fun b => b.id == bid)

/-! ## Side-effect retry policy (src/collections/Users.ts:407-446)

An attempt oracle abstracts the storage outcome of each successive
`payload.create` attempt on the notifications collection: success, a
foreign-key visibility failure (Postgres error code 23503), or some other
error. -/

/-- Outcome of one notification-create attempt. -/
inductive AttemptOutcome
  | ok
  | fkViolation
  | otherError
deriving DecidableEq, Repr

/-- Outcomes of the successive create attempts for one notification write,
indexed by attempt number. -/
def AttemptOracle : Type := Nat → AttemptOutcome

/-- A notification oracle assigns an attempt oracle to each notification
write (keyed by the record being written). -/
def NotifOracle : Type := NotificationRec → AttemptOracle

/-- The oracle on which every storage write succeeds at once. -/
def allOk : NotifOracle := fun _ _ => AttemptOutcome.ok

/-- `retry(fn, retries = 5, delay = 150)` (src/collections/Users.ts:407-421):
re-runs `fn` after a short delay while it fails with FK code 23503 and the
retry budget is positive; any other error, or FK failure with the budget
exhausted, is rethrown.  `k` is the index of the current attempt; on success
the index of the successful attempt is returned.  The source tests
`retries > 0 && code === 23503` in one condition; the branches are split on
the budget here for structural recursion, with identical outcomes. -/
def retry (o : AttemptOracle) (retries : Nat) (k : Nat) : Except AttemptOutcome Nat :=
  match retries with
  | 0 =>
    match o k with
    | AttemptOutcome.ok => Except.ok k
    | AttemptOutcome.fkViolation => Except.error AttemptOutcome.fkViolation
    | AttemptOutcome.otherError => Except.error AttemptOutcome.otherError
  | r + 1 =>
    match o k with
    | AttemptOutcome.ok => Except.ok k
    | AttemptOutcome.fkViolation => retry o r (k + 1)
    | AttemptOutcome.otherError => Except.error AttemptOutcome.otherError

/-- The default retry budget (`retries = 5` at src/collections/Users.ts:407). -/
def retryDefaultBudget : Nat := 5

/-- The delay between attempts in milliseconds (`delay = 150`). -/
def retryDelayMs : Nat := 150

/-- `createNotificationSafe` (src/collections/Users.ts:426-446): create via
`retry`; if retries exhaust with the FK failure and the data carries a
booking reference, fall back to creating the notification without the
booking reference; otherwise rethrow.  Returns the record as persisted. -/
def createNotificationSafe (o : AttemptOracle) (data : NotificationRec) :
    Except AttemptOutcome NotificationRec :=
  match retry o retryDefaultBudget 0 with
  | Except.ok _ => Except.ok data
  | Except.error AttemptOutcome.fkViolation =>
      match data.booking with
      | some _ => Except.ok { data with booking := none }
      | none => Except.error AttemptOutcome.fkViolation
  | Except.error e => Except.error e

/-! ## Booking hooks (src/collections/Users.ts:515-745)

The collection pipeline is modelled per the hook file itself:
`beforeChange` computes the persisted data, `afterChange`/`afterDelete`
write notifications and run waitlist promotion, and `afterOperation` writes
the audit log for create and delete (the file notes the split:
"Notifications only (NO LOG INSERTS here)", "delete log is in
afterOperation"). -/

/-- The string form of a status, as interpolated into notes and titles. -/
def statusText : BStatus → String
  | BStatus.confirmed => "confirmed"
  | BStatus.waitlisted => "waitlisted"
  | BStatus.canceled => "canceled"

/-- Notification type for a status, per the switch at
src/collections/Users.ts:628-640. -/
def notifTypeOfStatus : BStatus → NotifType
  | BStatus.confirmed => NotifType.booking_confirmed
  | BStatus.waitlisted => NotifType.waitlisted
  | BStatus.canceled => NotifType.booking_canceled

/-- `payload.create` on booking-logs: the `action` select field validates its
value against the schema options (src/schemas/fields/bookingLogsFields.ts),
so a write with an action outside them fails and persists nothing (the
callers catch and log such failures). -/
def createBookingLog (entry : LogEntry) (s : SysState) : SysState :=
  if bookingLogActionOptions.contains entry.action then
    { s with logs := s.logs ++ [entry] }
  else s

/-- The cancellation notification of the afterChange hook
(src/collections/Users.ts:607-615). -/
def cancelNotifRec (doc : BookingRec) : NotificationRec :=
  { user := doc.user, booking := some doc.id, ntype := NotifType.booking_canceled,
    title := "Booking Canceled", message := "Your booking has been canceled.",
    tenant := doc.tenant, read := false }

/-- The deletion notification of the afterDelete hook
(src/collections/Users.ts:664-672). -/
def deleteNotifRec (doc : BookingRec) : NotificationRec :=
  { user := doc.user, booking := some doc.id, ntype := NotifType.booking_canceled,
    title := "Booking Deleted", message := "Your confirmed booking has been deleted.",
    tenant := doc.tenant, read := false }

/-- `promoteOldestWaitlist(eventId, tenantId, req)`
(src/collections/Users.ts:453-512): find the oldest waitlisted booking of
`(eid, t)`; if none, return null ("no candidate").  Otherwise flip its
status to confirmed through `db.updateOne` (bypassing hooks), write the
`waitlist_promoted` notification via `createNotificationSafe`, then write
the `promote_from_waitlist` log.  Any error is caught and `null` returned;
a notification failure therefore skips the log but the status flip has
already been persisted.  The `promoterCalls` append is ghost
instrumentation recording the invocation. -/
def promoteOldestWaitlist (o : NotifOracle) (eid t : Nat) (s : SysState) :
    SysState × Option BookingRec :=
  let s0 := { s with promoterCalls := s.promoterCalls ++ [(eid, t)] }
  match oldestWaitlisted s0.bookings eid t with
  | none => (s0, none)
  | some c =>
    let bookings2 := updateBookingStatus s0.bookings c.id BStatus.confirmed
    let promoted := { c with status := BStatus.confirmed }
    let nd : NotificationRec :=
      { user := promoted.user, booking := some promoted.id,
        ntype := NotifType.waitlist_promoted,
        title := "Promoted from Waitlist",
        message := "You have been promoted from waitlist to confirmed.",
        tenant := t, read := false }
    match createNotificationSafe (o nd) nd with
    | Except.error _ => ({ s0 with bookings := bookings2 }, none)
    | Except.ok n =>
      let le : LogEntry :=
        { booking := promoted.id, event := eid, user := promoted.user,
          action := LogAction.promote_from_waitlist,
          note := "Automatically promoted from waitlist after cancellation.",
          tenant := t }
      (createBookingLog le
        { s0 with bookings := bookings2, notifications := s0.notifications ++ [n] },
       some promoted)

/-- The create branch of the afterChange hook
(src/collections/Users.ts:573-596): one notification whose type, title and
message are selected by the persisted status; a notification failure is
caught and ignored. -/
def bookingAfterChangeCreate (o : NotifOracle) (doc : BookingRec) (s : SysState) : SysState :=
  let confirmedQ := doc.status == BStatus.confirmed
  let nd : NotificationRec :=
    { user := doc.user, booking := some doc.id,
      ntype := if confirmedQ then NotifType.booking_confirmed else NotifType.waitlisted,
      title := if confirmedQ then "Booking Confirmed" else "Added to Waitlist",
      message := if confirmedQ then "Your booking has been confirmed."
                 else "The event is full. You have been added to the waitlist.",
      tenant := doc.tenant, read := false }
  match createNotificationSafe (o nd) nd with
  | Except.ok n => { s with notifications := s.notifications ++ [n] }
  | Except.error _ => s

/-- The update branch of the afterChange hook
(src/collections/Users.ts:598-655).  No status change: return.  Confirmed
to canceled: cancellation notification then waitlist promotion, both inside
one try/catch, so a notification failure skips the promotion.  Any other
status change: a general status-change notification. -/
def bookingAfterChangeUpdate (o : NotifOracle) (previousDoc doc : BookingRec) (s : SysState) :
    SysState :=
  if previousDoc.status == doc.status then s
  else if previousDoc.status == BStatus.confirmed && doc.status == BStatus.canceled then
    let nd := cancelNotifRec doc
    match createNotificationSafe (o nd) nd with
    | Except.error _ => s
    | Except.ok n =>
      (promoteOldestWaitlist o doc.event doc.tenant
        { s with notifications := s.notifications ++ [n] }).1
  else
    let nd : NotificationRec :=
      { user := doc.user, booking := some doc.id, ntype := notifTypeOfStatus doc.status,
        title := "Booking " ++ statusText doc.status,
        message := "Your booking status is now: " ++ statusText doc.status,
        tenant := doc.tenant, read := false }
    match createNotificationSafe (o nd) nd with
    | Except.error _ => s
    | Except.ok n => { s with notifications := s.notifications ++ [n] }

/-- The afterDelete hook (src/collections/Users.ts:659-679): nothing unless
the deleted booking was confirmed; otherwise a deletion notification then
waitlist promotion, in one try/catch. -/
def bookingAfterDelete (o : NotifOracle) (doc : BookingRec) (s : SysState) : SysState :=
  if !(doc.status == BStatus.confirmed) then s
  else
    let nd := deleteNotifRec doc
    match createNotificationSafe (o nd) nd with
    | Except.error _ => s
    | Except.ok n =>
      (promoteOldestWaitlist o doc.event doc.tenant
        { s with notifications := s.notifications ++ [n] }).1

/-- The create case of `bookingAfterOperation`
(src/collections/Users.ts:699-707): an `auto_confirm` or `auto_waitlist`
log entry. -/
def bookingAfterOperationCreate (doc : BookingRec) (s : SysState) : SysState :=
  createBookingLog
    { booking := doc.id, event := doc.event, user := doc.user,
      action := if doc.status == BStatus.confirmed then LogAction.auto_confirm
                else LogAction.auto_waitlist,
      note := "Booking created with status: " ++ statusText doc.status,
      tenant := doc.tenant } s

/-- The delete case of `bookingAfterOperation`
(src/collections/Users.ts:710-729): `cancel_confirmed` for a confirmed
booking, else `cancel_unconfirmed` (which the booking-logs schema
rejects, so nothing persists on that branch). -/
def bookingAfterOperationDelete (doc : BookingRec) (s : SysState) : SysState :=
  if doc.status == BStatus.confirmed then
    createBookingLog
      { booking := doc.id, event := doc.event, user := doc.user,
        action := LogAction.cancel_confirmed,
        note := "Confirmed booking was deleted", tenant := doc.tenant } s
  else
    createBookingLog
      { booking := doc.id, event := doc.event, user := doc.user,
        action := LogAction.cancel_unconfirmed,
        note := "Unconfirmed booking (status: " ++ statusText doc.status ++ ") was deleted",
        tenant := doc.tenant } s

/-- Client-supplied booking data reaching the beforeChange hook. -/
structure BookingInput where
  event : Option Nat
  user : Option Nat
  tenant : Option Nat
  status : Option BStatus
deriving DecidableEq, Repr

/-- The data the beforeChange hook hands to the storage layer. -/
structure BookingData where
  event : Nat
  user : Nat
  tenant : Nat
  status : BStatus
deriving DecidableEq, Repr

/-- Errors thrown by the beforeChange hook. -/
inductive HookError
  | noTenant
  | noEvent
  | eventNotFound
deriving DecidableEq, Repr

/-- The beforeChange hook on create (src/collections/Users.ts:515-560):
requires the requester to carry a tenant, overwrites `data.tenant` and
`data.user` from the requester, requires the event, loads it, counts the
tenant-scoped confirmed bookings and overwrites `data.status` with the
capacity-gate decision.  The client-supplied `user`, `tenant` and `status`
fields are never read. -/
def bookingBeforeChange (u : UserRec) (d : BookingInput)
    (es : List EventRec) (bs : List BookingRec) : Except HookError BookingData :=
  match u.tenant with
  | none => Except.error HookError.noTenant
  | some ut =>
    match d.event with
    | none => Except.error HookError.noEvent
    | some eid =>
      match findEventById es eid with
      | none => Except.error HookError.eventNotFound
      | some ev =>
        Except.ok { event := eid, user := u.id, tenant := ut,
                    status := decideStatus (countConfirmedTenant bs eid ut) ev.capacity }

/-- `payload.create` on the bookings collection with the full hook
pipeline: beforeChange, persist (with a fresh id and the current logical
time), afterChange (notification), afterOperation (audit log). -/
def createBookingViaHooks (o : NotifOracle) (u : UserRec) (d : BookingInput) (s : SysState) :
    SysState × Except HookError BookingRec :=
  match bookingBeforeChange u d s.events s.bookings with
  | Except.error e => (s, Except.error e)
  | Except.ok bd =>
    let b : BookingRec :=
      { id := s.nextId, event := bd.event, user := bd.user, tenant := bd.tenant,
        status := bd.status, createdAt := s.now }
    let s1 := { s with bookings := s.bookings ++ [b], nextId := s.nextId + 1, now := s.now + 1 }
    let s2 := bookingAfterChangeCreate o b s1
    let s3 := bookingAfterOperationCreate b s2
    (s3, Except.ok b)

/-! ## Operations: SubmitBooking, CancelBooking, deletion -/

/-- Error responses of the `bookEvent` endpoint. -/
inductive ApiError
  | unauthorized
  | badRequest
  | notFound
  | tenantMismatch
  | conflict
  | internal
deriving DecidableEq, Repr

/-- HTTP status code of each endpoint error (src/endpoints/bookEvent.ts). -/
def ApiError.statusCode : ApiError → Nat
  | ApiError.unauthorized => 401
  | ApiError.badRequest => 400
  | ApiError.notFound => 404
  | ApiError.tenantMismatch => 403
  | ApiError.conflict => 400
  | ApiError.internal => 500

/-- Response body message of each endpoint error. -/
def ApiError.message : ApiError → String
  | ApiError.unauthorized => "Unauthorized"
  | ApiError.badRequest => "eventId is required"
  | ApiError.notFound => "Event not found"
  | ApiError.tenantMismatch => "Event belongs to another tenant"
  | ApiError.conflict => "You already have a booking for this event"
  | ApiError.internal => "Internal server error"

/-- The SubmitBooking endpoint (src/endpoints/bookEvent.ts:12-115):
auth check, event lookup (404 when absent), tenant check (403 when the
event belongs to another tenant), duplicate check over every booking of
`(event, user)` regardless of status (400 when one exists), then
`payload.create` through the hook pipeline — whose beforeChange recomputes
the status, overwriting the endpoint-computed one — followed by the
endpoint notification write.  The endpoint then attempts a log write to
collection slug `bookingLogs`; no collection with that slug is configured
(the booking-logs collection is registered as `booking-logs`), so that
create throws and the handler answers 500 after the booking, hook side
effects and endpoint notification have already been persisted.  A hook
error inside `payload.create` is likewise caught as 500, with no booking
persisted. -/
def bookEvent (o : NotifOracle) (user? : Option UserRec) (eventId? : Option Nat)
    (s : SysState) : SysState × Except ApiError BookingRec :=
  match user? with
  | none => (s, Except.error ApiError.unauthorized)
  | some u =>
    match eventId? with
    | none => (s, Except.error ApiError.badRequest)
    | some eid =>
      match findEventById s.events eid with
      | none => (s, Except.error ApiError.notFound)
      | some ev =>
        if !(u.tenant == some ev.tenant) then (s, Except.error ApiError.tenantMismatch)
        else if hasAnyBooking s.bookings eid u.id then (s, Except.error ApiError.conflict)
        else
          let endpointStatus := decideStatusEndpoint (confirmedCountAll s.bookings eid) ev.capacity
          match createBookingViaHooks o u
              { event := some eid, user := some u.id, tenant := u.tenant,
                status := some endpointStatus } s with
          | (s1, Except.error _) => (s1, Except.error ApiError.internal)
          | (s1, Except.ok b) =>
            let nd : NotificationRec :=
              { user := u.id, booking := some b.id,
                ntype := if endpointStatus == BStatus.confirmed then NotifType.booking_confirmed
                         else NotifType.waitlisted,
                title := if endpointStatus == BStatus.confirmed then "Booking Confirmed"
                         else "Added to Waitlist",
                message := if endpointStatus == BStatus.confirmed then "Your booking is confirmed."
                           else "Your booking is on the waitlist.",
                tenant := ev.tenant, read := false }
            let s2 := { s1 with notifications := s1.notifications ++ [nd] }
            (s2, Except.error ApiError.internal)

/-- Errors of the cancellation / deletion operations. -/
inductive CancelError
  | notFound
  | forbidden
deriving DecidableEq, Repr

/-- `BookingService.cancel(bookingId, user)`
(src/services/NotificationService.ts:299-311) composed with the bookings
update hooks: tenant-scoped `findById` (absent or cross-tenant: NotFound,
with the super-admin unrestricted per the query builder), ownership check
for attendees (Forbidden), then an unconditional update to status
`canceled`, which fires the update branch of the afterChange hook. -/
def cancelBooking (o : NotifOracle) (u : UserRec) (bid : Nat) (s : SysState) :
    SysState × Except CancelError BookingRec :=
  match findBookingById s.bookings bid with
  | none => (s, Except.error CancelError.notFound)
  | some b0 =>
    if !(u.role == Role.superAdmin) && !(u.tenant == some b0.tenant) then
      (s, Except.error CancelError.notFound)
    else if u.role == Role.attendee && !(b0.user == u.id) then
      (s, Except.error CancelError.forbidden)
    else
      let doc := { b0 with status := BStatus.canceled }
      let s1 := { s with bookings := updateBookingStatus s.bookings bid BStatus.canceled }
      (bookingAfterChangeUpdate o b0 doc s1, Except.ok doc)

/-- `payload.delete` on a booking: remove the record, then the afterDelete
hook (notification + promotion for a confirmed booking) and the delete case
of `bookingAfterOperation` (audit log). -/
def deleteBooking (o : NotifOracle) (bid : Nat) (s : SysState) :
    SysState × Except CancelError BookingRec :=
  match findBookingById s.bookings bid with
  | none => (s, Except.error CancelError.notFound)
  | some doc =>
    let s1 := { s with bookings := s.bookings.filter (fun b => !(b.id == bid)) }
    let s2 := bookingAfterDelete o doc s1
    let s3 := bookingAfterOperationDelete doc s2
    (s3, Except.ok doc)

/-- One operation of the booking core. -/
inductive Oper
  | submit (u : UserRec) (eid : Option Nat)
  | cancel (u : UserRec) (bid : Nat)
  | delete (bid : Nat)

/-- Apply one operation, keeping the state an operation leaves behind
whether it answers success or an error. -/
def applyOper (o : NotifOracle) (s : SysState) : Oper → SysState
  | Oper.submit u eid => (bookEvent o (some u) eid s).1
  | Oper.cancel u bid => (cancelBooking o u bid s).1
  | Oper.delete bid => (deleteBooking o bid s).1

/-- Run a sequence of operations. -/
def runOpers (o : NotifOracle) (s : SysState) (l : List Oper) : SysState :=
  l.foldl (applyOper o) s

/-! ## Invariants -/

/-- The capacity-safety invariant of the spec: for every event, the number
of Confirmed bookings referencing it (over every tenant) is at most its
capacity. -/
def CapacityInv (s : SysState) : Prop :=
  ∀ e ∈ s.events, confirmedCountAll s.bookings e.id ≤ e.capacity

/-- Tenant alignment: every booking of an existing event carries that
event's tenant (the data-model invariant "tenant reference must equal both
the event's and the requester's tenant"). -/
def TenantAligned (s : SysState) : Prop :=
  ∀ e ∈ s.events, ∀ b ∈ s.bookings, b.event = e.id → b.tenant = e.tenant

/-- Structural well-formedness of the storage: primary-key uniqueness for
events and bookings, and freshness of the id counter. -/
def StateWF (s : SysState) : Prop :=
  (s.events.map EventRec.id).Nodup ∧
  (s.bookings.map BookingRec.id).Nodup ∧
  ∀ b ∈ s.bookings, b.id < s.nextId

/-- The conjunction preserved by the operations: well-formed storage,
tenant-aligned bookings, and capacity safety. -/
def GoodState (s : SysState) : Prop :=
  StateWF s ∧ TenantAligned s ∧ CapacityInv s

/-! ## Concrete fixtures used by witnesses and counterexamples -/

/-- An event of capacity 2 in tenant 0. -/
def exEvent2 : EventRec := { id := 0, tenant := 0, capacity := 2 }

/-- Attendees A, B, C of tenant 0. -/
def exUserA : UserRec := { id := 1, tenant := some 0, role := Role.attendee }

def exUserB : UserRec := { id := 2, tenant := some 0, role := Role.attendee }

def exUserC : UserRec := { id := 3, tenant := some 0, role := Role.attendee }

/-- A booking request naming only the event. -/
def exInput : BookingInput :=
  { event := some 0, user := none, tenant := none, status := none }

/-- Empty store holding the capacity-2 event. -/
def scenario0 : SysState :=
  { events := [exEvent2], bookings := [], notifications := [], logs := [],
    nextId := 100, now := 0, promoterCalls := [] }

/-- A, B, C submit in that order, then A cancels their booking (id 100). -/
def scenario1 : SysState := (createBookingViaHooks allOk exUserA exInput scenario0).1

def scenario2 : SysState := (createBookingViaHooks allOk exUserB exInput scenario1).1

def scenario3 : SysState := (createBookingViaHooks allOk exUserC exInput scenario2).1

def scenario4 : SysState := (cancelBooking allOk exUserA 100 scenario3).1

/-- A capacity-1 event in tenant 0 together with a confirmed booking for it
recorded under tenant 1: the initial state of the capacity counterexample.
It satisfies `CapacityInv` but not `TenantAligned`. -/
def exMisEvent : EventRec := { id := 0, tenant := 0, capacity := 1 }

def exMisBooking : BookingRec :=
  { id := 10, event := 0, user := 9, tenant := 1, status := BStatus.confirmed, createdAt := 0 }

def exMisState : SysState :=
  { events := [exMisEvent], bookings := [exMisBooking], notifications := [], logs := [],
    nextId := 100, now := 1, promoterCalls := [] }

/-- Two waitlisted bookings with equal creation timestamps, stored with the
larger identifier first. -/
def exW2 : BookingRec :=
  { id := 2, event := 0, user := 5, tenant := 0, status := BStatus.waitlisted, createdAt := 7 }

def exW1 : BookingRec :=
  { id := 1, event := 0, user := 6, tenant := 0, status := BStatus.waitlisted, createdAt := 7 }

/-- A confirmed booking of attendee A with no waitlist behind it. -/
def exConfBooking : BookingRec :=
  { id := 10, event := 0, user := 1, tenant := 0, status := BStatus.confirmed, createdAt := 0 }

def exCancelState : SysState :=
  { events := [exEvent2], bookings := [exConfBooking], notifications := [], logs := [],
    nextId := 100, now := 1, promoterCalls := [] }

/-- A confirmed booking with one waitlisted booking behind it. -/
def exC6Waitlisted : BookingRec :=
  { id := 11, event := 0, user := 2, tenant := 0, status := BStatus.waitlisted, createdAt := 1 }

def exC6State : SysState :=
  { events := [exEvent2], bookings := [exConfBooking, exC6Waitlisted], notifications := [],
    logs := [], nextId := 100, now := 2, promoterCalls := [] }

/-- A canceled booking of attendee A for event 0, and nothing else. -/
def exCanceledBooking : BookingRec :=
  { id := 10, event := 0, user := 1, tenant := 0, status := BStatus.canceled, createdAt := 0 }

def exDupState : SysState :=
  { events := [exEvent2], bookings := [exCanceledBooking], notifications := [], logs := [],
    nextId := 100, now := 1, promoterCalls := [] }

/-- An event that exists, but in tenant 2. -/
def exForeignEvent : EventRec := { id := 5, tenant := 2, capacity := 3 }

def exForeignState : SysState :=
  { events := [exForeignEvent], bookings := [], notifications := [], logs := [],
    nextId := 100, now := 0, promoterCalls := [] }

/-- The oracle on which every notification write fails with a non-FK
storage error. -/
def oErr : NotifOracle := fun _ _ => AttemptOutcome.otherError

/-- An attempt oracle that always reports the FK-visibility failure. -/
def oFkAlways : AttemptOracle := fun _ => AttemptOutcome.fkViolation

/-- A booking request that also tries to name a foreign user and tenant and
to force a confirmed status. -/
def exAdvInput : BookingInput :=
  { event := some 0, user := some 99, tenant := some 42, status := some BStatus.confirmed }

/-- A notification carrying a booking reference, for exercising the retry
fallback. -/
def exNotifData : NotificationRec :=
  { user := 1, booking := some 50, ntype := NotifType.booking_confirmed,
    title := "Booking Confirmed", message := "Your booking has been confirmed.",
    tenant := 0, read := false }

/-! ## Theorems

First the claim C2 about the capacity gate, then the list machinery, then
the remaining claims. -/

/-- C2: the admission decision is a pure total function of
`(confirmedCount, capacity)`: the status is `Confirmed` iff
`confirmedCount < capacity`, it is never `Canceled` (so the outcome set is
exactly `{Confirmed, Waitlisted}` with no error path), capacity zero always
yields `Waitlisted`, and the hook and the endpoint compute the same
function. -/
theorem C2_capacity_gate (c cap : Nat) :
    (decideStatus c cap = BStatus.confirmed ↔ c < cap) ∧
    (decideStatus c cap = BStatus.confirmed ∨ decideStatus c cap = BStatus.waitlisted) ∧
    decideStatus c 0 = BStatus.waitlisted ∧
    decideStatusEndpoint c cap = decideStatus c cap := by
  refine ⟨?_, ?_, ?_, ?_⟩
  · unfold decideStatus
    split <;> simp_all
  · unfold decideStatus
    split <;> simp
  · simp [decideStatus]
  · unfold decideStatus decideStatusEndpoint
    split <;> split <;> first | rfl | omega

/-! ## List counting machinery -/

/-- `confirmedCountAll` as a `countP`. -/
theorem confirmedCountAll_eq_countP (bs : List BookingRec) (eid : Nat) :
    confirmedCountAll bs eid =
      bs.countP (fun b => b.event == eid && b.status == BStatus.confirmed) := by
  simp [confirmedCountAll, List.countP_eq_length_filter]

/-- Counting after a keyed in-place map: the elements selected by `q` are
replaced by their images under `g`, the rest stay. -/
theorem countP_map_ite {α : Type} (p q : α → Bool) (g : α → α) (l : List α) :
    (l.map (fun b => if q b then g b else b)).countP p + (l.filter q).countP p
      = l.countP p + ((l.filter q).map g).countP p := by
  induction l with
  | nil => simp
  | cons b l ih =>
    by_cases hq : q b = true
    · simp only [List.map_cons, List.filter_cons, hq, if_true, List.countP_cons]
      omega
    · simp only [List.map_cons, List.filter_cons, hq, if_false, List.countP_cons,
        Bool.false_eq_true]
      omega

/-- With unique ids, filtering on one id keeps exactly the one record. -/
theorem filter_key_eq_single (bs : List BookingRec) (b0 : BookingRec)
    (hnd : (bs.map BookingRec.id).Nodup) (hmem : b0 ∈ bs) :
    bs.filter (fun b => b.id == b0.id) = [b0] := by
  induction bs with
  | nil => cases hmem
  | cons h t ih =>
    rw [List.map_cons, List.nodup_cons] at hnd
    rcases List.mem_cons.mp hmem with rfl | hmem2
    · rw [List.filter_cons_of_pos (by simp)]
      have ht : t.filter (fun b => b.id == b0.id) = [] := by
        rw [List.filter_eq_nil_iff]
        intro a ha hfa
        exact hnd.1 ((beq_iff_eq.mp hfa) ▸ List.mem_map_of_mem BookingRec.id ha)
      rw [ht]
    · have hne : (h.id == b0.id) = false := by
        rw [beq_eq_false_iff_ne]
        intro he
        exact hnd.1 (he ▸ List.mem_map_of_mem BookingRec.id hmem2)
      rw [List.filter_cons, hne]
      simp only [Bool.false_eq_true, if_false]
      exact ih hnd.2 hmem2

/-- `updateBookingStatus` does not change ids. -/
theorem updateBookingStatus_map_id (bs : List BookingRec) (bid : Nat) (st : BStatus) :
    (updateBookingStatus bs bid st).map BookingRec.id = bs.map BookingRec.id := by
  unfold updateBookingStatus
  rw [List.map_map]
  apply List.map_congr_left
  intro b _
  by_cases h : b.id = bid <;> simp [h]

/-- Exact counting across a keyed status update (unique ids). -/
theorem countP_updateBookingStatus (p : BookingRec → Bool) (bs : List BookingRec)
    (b0 : BookingRec) (st : BStatus)
    (hnd : (bs.map BookingRec.id).Nodup) (hmem : b0 ∈ bs) :
    (updateBookingStatus bs b0.id st).countP p + (if p b0 then 1 else 0)
      = bs.countP p + (if p { b0 with status := st } then 1 else 0) := by
  have h1 := countP_map_ite p (fun b => b.id == b0.id) (fun b => { b with status := st }) bs
  rw [filter_key_eq_single bs b0 hnd hmem] at h1
  simpa [updateBookingStatus, List.countP_singleton] using h1

/-- Exact counting across a keyed removal (unique ids). -/
theorem countP_filter_ne_key (p : BookingRec → Bool) (bs : List BookingRec) (b0 : BookingRec)
    (hnd : (bs.map BookingRec.id).Nodup) (hmem : b0 ∈ bs) :
    (bs.filter (fun b => !(b.id == b0.id))).countP p + (if p b0 then 1 else 0)
      = bs.countP p := by
  induction bs with
  | nil => cases hmem
  | cons h t ih =>
    rw [List.map_cons, List.nodup_cons] at hnd
    rcases List.mem_cons.mp hmem with rfl | hmem2
    · rw [List.filter_cons, List.countP_cons]
      simp only [beq_self_eq_true, Bool.not_true, Bool.false_eq_true, if_false]
      have ht : t.filter (fun b => !(b.id == b0.id)) = t := by
        rw [List.filter_eq_self]
        intro a ha
        simp only [Bool.not_eq_eq_eq_not, Bool.not_true, beq_eq_false_iff_ne]
        intro he
        exact hnd.1 (he ▸ List.mem_map_of_mem BookingRec.id ha)
      rw [ht]
    · have hne : (!(h.id == b0.id)) = true := by
        simp only [Bool.not_eq_eq_eq_not, Bool.not_true, beq_eq_false_iff_ne]
        intro he
        exact hnd.1 (he ▸ List.mem_map_of_mem BookingRec.id hmem2)
      rw [List.filter_cons, hne]
      simp only [if_true, List.countP_cons]
      have := ih hnd.2 hmem2
      omega

/-- `find?` on an id commutes with an id-preserving map. -/
theorem find?_key_map (bs : List BookingRec) (bid : Nat) (f : BookingRec → BookingRec)
    (hf : ∀ b, (f b).id = b.id) :
    (bs.map f).find? (fun b => b.id == bid) = (bs.find? (fun b => b.id == bid)).map f := by
  induction bs with
  | nil => rfl
  | cons h t ih =>
    simp only [List.map_cons, List.find?_cons, hf h]
    cases hh : (h.id == bid) with
    | true => rfl
    | false => exact ih

/-- The booking delivered by the `pickOldest` fold is a member of the list,
unless it was the accumulator. -/
theorem pickOldest_foldl_mem (l : List BookingRec) :
    ∀ (acc : Option BookingRec) (c : BookingRec),
      l.foldl pickOldest acc = some c → c ∈ l ∨ acc = some c := by
  induction l with
  | nil =>
    intro acc c h
    exact Or.inr h
  | cons b l ih =>
    intro acc c h
    rcases ih (pickOldest acc b) c h with h1 | h1
    · exact Or.inl (List.mem_cons_of_mem _ h1)
    · cases acc with
      | none =>
        simp only [pickOldest] at h1
        exact Or.inl (List.mem_cons.mpr (Or.inl (Option.some.inj h1).symm))
      | some a =>
        simp only [pickOldest] at h1
        split at h1
        · exact Or.inl (List.mem_cons.mpr (Or.inl (Option.some.inj h1).symm))
        · exact Or.inr h1

/-- The booking delivered by the `pickOldest` fold has the least
`createdAt` among the list and the accumulator. -/
theorem pickOldest_foldl_min (l : List BookingRec) :
    ∀ (acc : Option BookingRec) (c : BookingRec),
      l.foldl pickOldest acc = some c →
      (∀ b ∈ l, c.createdAt ≤ b.createdAt) ∧
      (∀ a, acc = some a → c.createdAt ≤ a.createdAt) := by
  induction l with
  | nil =>
    intro acc c h
    refine ⟨?_, ?_⟩
    · intro b hb
      cases hb
    · intro a ha
      rw [ha] at h
      rw [Option.some.inj h]
  | cons b l ih =>
    intro acc c h
    obtain ⟨h1, h2⟩ := ih (pickOldest acc b) c h
    have hb : c.createdAt ≤ b.createdAt := by
      cases acc with
      | none => exact h2 b rfl
      | some a =>
        simp only [pickOldest] at h2
        by_cases hlt : b.createdAt < a.createdAt
        · exact h2 b (by rw [if_pos hlt])
        · have := h2 a (by rw [if_neg hlt])
          omega
    refine ⟨?_, ?_⟩
    · intro x hx
      rcases List.mem_cons.mp hx with rfl | hx2
      · exact hb
      · exact h1 x hx2
    · intro a ha
      cases acc with
      | none => cases ha
      | some a2 =>
        obtain rfl : a2 = a := Option.some.inj ha
        simp only [pickOldest] at h2
        by_cases hlt : b.createdAt < a2.createdAt
        · have := h2 b (by rw [if_pos hlt])
          omega
        · exact h2 a2 (by rw [if_neg hlt])

/-- What a successful waitlist query returns: a stored waitlisted booking
of the given event and tenant whose `createdAt` is minimal among such
bookings. -/
theorem oldestWaitlisted_spec (bs : List BookingRec) (eid t : Nat) (c : BookingRec)
    (h : oldestWaitlisted bs eid t = some c) :
    c ∈ bs ∧ isWaitlistCandidate eid t c = true ∧
    ∀ b ∈ bs, isWaitlistCandidate eid t b = true → c.createdAt ≤ b.createdAt := by
  unfold oldestWaitlisted at h
  have hmem := pickOldest_foldl_mem _ _ _ h
  have hmin := pickOldest_foldl_min _ _ _ h
  rcases hmem with hm | hm
  · have hc := List.mem_filter.mp hm
    refine ⟨hc.1, hc.2, ?_⟩
    intro b hb hcand
    exact hmin.1 b (List.mem_filter.mpr ⟨hb, hcand⟩)
  · simp at hm

/-- C5 (amended): each invocation of the waitlist promoter selects, among
the bookings with the given event, tenant and status Waitlisted, one with
the minimal creation timestamp — ties resolved by storage order, since the
query sorts by `createdAt` alone — promotes exactly that booking to
Confirmed, and returns a "no candidate" result (not an error) when no such
booking exists; no earlier-created still-waitlisted booking is skipped in
favor of a later-created one. -/
theorem C5_promoter_oldest (o : NotifOracle) (eid t : Nat) (s : SysState) :
    (oldestWaitlisted s.bookings eid t = none →
      promoteOldestWaitlist o eid t s =
        ({ s with promoterCalls := s.promoterCalls ++ [(eid, t)] }, none)) ∧
    (∀ c, oldestWaitlisted s.bookings eid t = some c →
      c ∈ s.bookings ∧ c.event = eid ∧ c.status = BStatus.waitlisted ∧ c.tenant = t ∧
      (∀ b ∈ s.bookings, b.event = eid → b.status = BStatus.waitlisted → b.tenant = t →
        c.createdAt ≤ b.createdAt) ∧
      (promoteOldestWaitlist o eid t s).1.bookings =
        updateBookingStatus s.bookings c.id BStatus.confirmed) := by
  constructor
  · intro h
    simp only [promoteOldestWaitlist, h]
  · intro c h
    obtain ⟨hmem, hcand, hmin⟩ := oldestWaitlisted_spec s.bookings eid t c h
    have hcand3 : c.event = eid ∧ c.status = BStatus.waitlisted ∧ c.tenant = t := by
      simpa [isWaitlistCandidate, Bool.and_eq_true, beq_iff_eq, and_assoc] using hcand
    refine ⟨hmem, hcand3.1, hcand3.2.1, hcand3.2.2, ?_, ?_⟩
    · intro b hb he hs ht
      exact hmin b hb (by simp [isWaitlistCandidate, he, hs, ht])
    · simp only [promoteOldestWaitlist, h]
      split

      · rfl
      · simp [createBookingLog, bookingLogActionOptions]

/-- Witness for C5 on a concrete store: the single waitlisted booking is
found and promoted in place. -/
theorem C5_witness :
    exC6Waitlisted ∈ exC6State.bookings ∧
    (promoteOldestWaitlist allOk 0 0 exC6State).1.bookings
      = updateBookingStatus exC6State.bookings 11 BStatus.confirmed := by
  have h := (C5_promoter_oldest allOk 0 0 exC6State).2 exC6Waitlisted rfl
  exact ⟨h.1, h.2.2.2.2.2⟩

/-- C5 counterexample: with two waitlisted bookings of equal `createdAt`
stored larger-id-first, the promoter selects the first stored record
(id 2), not the unique minimum under (timestamp, identifier) (id 1): the
query sorts by `createdAt` alone, with no identifier tie-break. -/
theorem C5_counterexample :
    oldestWaitlisted [exW2, exW1] 0 0 = some exW2 ∧
    oldestWaitlisted [exW2, exW1] 0 0 ≠ some exW1 ∧
    exW1 ∈ [exW2, exW1] ∧
    isWaitlistCandidate 0 0 exW1 = true ∧
    isWaitlistCandidate 0 0 exW2 = true ∧
    exW1.createdAt = exW2.createdAt ∧ exW1.id < exW2.id ∧ exW1 ≠ exW2 := by
  decide

/-- C9 (amended): the endpoint answers NotFound (404, "Event not found")
for an absent event but TenantMismatch (403, "Event belongs to another
tenant") for an event existing in another tenant: the two are observably
different, so cross-tenant existence is distinguishable from absence. -/
theorem C9_cross_tenant_error (o : NotifOracle) (u : UserRec) (eid : Nat) (s : SysState) :
    (findEventById s.events eid = none →
      (bookEvent o (some u) (some eid) s).2 = Except.error ApiError.notFound) ∧
    (∀ ev, findEventById s.events eid = some ev → u.tenant ≠ some ev.tenant →
      (bookEvent o (some u) (some eid) s).2 = Except.error ApiError.tenantMismatch) ∧
    ApiError.statusCode ApiError.tenantMismatch ≠ ApiError.statusCode ApiError.notFound ∧
    ApiError.message ApiError.tenantMismatch ≠ ApiError.message ApiError.notFound := by
  refine ⟨?_, ?_, by decide, by simp [ApiError.message]⟩
  · intro h
    simp only [bookEvent, h]
  · intro ev hev hne
    have hb : (u.tenant == some ev.tenant) = false := by
      rw [beq_eq_false_iff_ne]
      exact hne
    simp only [bookEvent, hev, hb, Bool.not_false, if_true]

/-- Witness for C9 at the concrete store: event 5 exists in tenant 2,
the requester sits in tenant 0, and event 99 is absent. -/
theorem C9_witness :
    (bookEvent allOk (some exUserA) (some 99) exForeignState).2
        = Except.error ApiError.notFound ∧
    (bookEvent allOk (some exUserA) (some 5) exForeignState).2
        = Except.error ApiError.tenantMismatch := by
  constructor
  · exact (C9_cross_tenant_error allOk exUserA 99 exForeignState).1 rfl
  · exact (C9_cross_tenant_error allOk exUserA 5 exForeignState).2.1 exForeignEvent rfl
      (by decide)

/-- C9 counterexample: for the same requester, a cross-tenant event yields
error 403 "Event belongs to another tenant" while an absent event yields
404 "Event not found" — the two observable results differ, contradicting
the claimed indistinguishability. -/
theorem C9_counterexample :
    (bookEvent allOk (some exUserA) (some 5) exForeignState).2
        = Except.error ApiError.tenantMismatch ∧
    (bookEvent allOk (some exUserA) (some 99) exForeignState).2
        = Except.error ApiError.notFound ∧
    ApiError.tenantMismatch ≠ ApiError.notFound ∧
    ApiError.statusCode ApiError.tenantMismatch = 403 ∧
    ApiError.statusCode ApiError.notFound = 404 := by
  refine ⟨rfl, rfl, by decide, rfl, rfl⟩

/-- C3 (amended): once the event is found in the requester's tenant,
SubmitBooking fails with the duplicate error exactly when some booking —
of any status, Canceled included — already exists for that
(event, requester) pair, and a failed duplicate attempt leaves the state
untouched, creating no booking. -/
theorem C3_duplicate_conflict (o : NotifOracle) (u : UserRec) (eid : Nat) (s : SysState)
    (ev : EventRec) (hfind : findEventById s.events eid = some ev)
    (ht : u.tenant = some ev.tenant) :
    ((bookEvent o (some u) (some eid) s).2 = Except.error ApiError.conflict ↔
      ∃ b ∈ s.bookings, b.event = eid ∧ b.user = u.id) ∧
    ((bookEvent o (some u) (some eid) s).2 = Except.error ApiError.conflict →
      (bookEvent o (some u) (some eid) s).1 = s) := by
  have htb : (u.tenant == some ev.tenant) = true := by
    rw [ht]
    exact beq_self_eq_true _
  by_cases hdup : hasAnyBooking s.bookings eid u.id = true
  · constructor
    · simp only [bookEvent, hfind, htb, Bool.not_true, Bool.false_eq_true, if_false, hdup,
        if_true]
      constructor
      · intro _
        have := List.any_eq_true.mp hdup
        obtain ⟨b, hb, hp⟩ := this
        exact ⟨b, hb, by simpa [Bool.and_eq_true, beq_iff_eq] using hp⟩
      · intro _
        trivial
    · intro _
      simp only [bookEvent, hfind, htb, Bool.not_true, Bool.false_eq_true, if_false, hdup,
        if_true]
  · constructor
    · simp only [bookEvent, hfind, htb, Bool.not_true, Bool.false_eq_true, if_false, hdup,
        if_false]
      constructor
      · intro hc
        exfalso
        rcases hcr : createBookingViaHooks o u
            { event := some eid, user := some u.id, tenant := u.tenant,
              status := some (decideStatusEndpoint (confirmedCountAll s.bookings eid)
                ev.capacity) } s with ⟨s1, r⟩
        cases r with
        | error e =>
          rw [hcr] at hc
          simp at hc
        | ok b =>
          rw [hcr] at hc
          simp at hc
      · intro hex
        exfalso
        apply hdup
        obtain ⟨b, hb, he, hu⟩ := hex
        exact List.any_eq_true.mpr ⟨b, hb, by simp [he, hu]⟩
    · intro hc
      exfalso
      revert hc
      simp only [bookEvent, hfind, htb, Bool.not_true, Bool.false_eq_true, if_false, hdup,
        if_false]
      rcases hcr : createBookingViaHooks o u
          { event := some eid, user := some u.id, tenant := u.tenant,
            status := some (decideStatusEndpoint (confirmedCountAll s.bookings eid)
              ev.capacity) } s with ⟨s1, r⟩
      cases r with
      | error e => simp
      | ok b => simp

/-- Witness for C3 at a concrete store: for the pair with an existing
(canceled) booking the endpoint answers the duplicate error and changes
nothing. -/
theorem C3_witness :
    (bookEvent allOk (some exUserA) (some 0) exDupState).2 = Except.error ApiError.conflict ∧
    (bookEvent allOk (some exUserA) (some 0) exDupState).1 = exDupState := by
  have h := C3_duplicate_conflict allOk exUserA 0 exDupState exEvent2 rfl rfl
  have hc : (bookEvent allOk (some exUserA) (some 0) exDupState).2
      = Except.error ApiError.conflict :=
    h.1.mpr ⟨exCanceledBooking, by decide, by decide, by decide⟩
  exact ⟨hc, h.2 hc⟩

/-- C3 counterexample: a requester whose only prior booking for the event
is Canceled is not admitted — the duplicate query has no status filter, so
the endpoint still answers the duplicate error. -/
theorem C3_counterexample :
    exCanceledBooking ∈ exDupState.bookings ∧
    exCanceledBooking.event = 0 ∧
    exCanceledBooking.user = exUserA.id ∧
    (∀ b ∈ exDupState.bookings, b.status = BStatus.canceled) ∧
    (bookEvent allOk (some exUserA) (some 0) exDupState).2
      = Except.error ApiError.conflict := by
  exact ⟨by decide, by decide, by decide, by decide, rfl⟩

/-- C10: the persisted booking is independent of any client-supplied
`user`, `tenant` or `status`: two create requests differing only in those
fields produce identical results, and on success the stored record carries
the authenticated requester's id, the requester's tenant, and the status
computed by the capacity gate from the tenant-scoped confirmed count and
the event capacity. -/
theorem C10_server_side_fields (o : NotifOracle) (u : UserRec) (d1 d2 : BookingInput)
    (s : SysState) (h : d1.event = d2.event) :
    createBookingViaHooks o u d1 s = createBookingViaHooks o u d2 s ∧
    (∀ s2 b, createBookingViaHooks o u d1 s = (s2, Except.ok b) →
      b.user = u.id ∧ some b.tenant = u.tenant ∧
      ∃ eid ev, d1.event = some eid ∧ findEventById s.events eid = some ev ∧
        b.status = decideStatus (countConfirmedTenant s.bookings eid b.tenant) ev.capacity) := by
  constructor
  · simp only [createBookingViaHooks, bookingBeforeChange, h]
  · intro s2 b hb
    revert hb
    simp only [createBookingViaHooks, bookingBeforeChange]
    cases hu : u.tenant with
    | none =>
      intro hb
      simp at hb
    | some ut =>
      cases he : d1.event with
      | none =>
        intro hb
        simp at hb
      | some eid =>
        cases hf : findEventById s.events eid with
        | none =>
          intro hb
          simp [hf] at hb
        | some ev =>
          intro hb
          simp only [hf, Prod.mk.injEq, Except.ok.injEq] at hb
          refine ⟨?_, ?_, eid, ev, rfl, hf, ?_⟩
          · rw [← hb.2]
          · rw [← hb.2]
          · rw [← hb.2]

/-- Witness for C10: an adversarial request naming a foreign user, a
foreign tenant and a forced Confirmed status creates exactly what the
plain request naming only the event creates. -/
theorem C10_witness :
    createBookingViaHooks allOk exUserA exAdvInput scenario0
      = createBookingViaHooks allOk exUserA exInput scenario0 ∧
    ∀ s2 b, createBookingViaHooks allOk exUserA exAdvInput scenario0 = (s2, Except.ok b) →
      b.user = exUserA.id ∧ some b.tenant = exUserA.tenant :=
  ⟨(C10_server_side_fields allOk exUserA exAdvInput exInput scenario0 rfl).1,
   fun s2 b hb =>
     ⟨((C10_server_side_fields allOk exUserA exAdvInput exInput scenario0 rfl).2 s2 b hb).1,
      ((C10_server_side_fields allOk exUserA exAdvInput exInput scenario0 rfl).2 s2 b hb).2.1⟩⟩

/-! ## Retry policy lemmas (C7) -/

/-- One step of `retry` with budget left. -/
theorem retry_succ (o : AttemptOracle) (r k : Nat) :
    retry o (r + 1) k =
      match o k with
      | AttemptOutcome.ok => Except.ok k
      | AttemptOutcome.fkViolation => retry o r (k + 1)
      | AttemptOutcome.otherError => Except.error AttemptOutcome.otherError := rfl

/-- `retry` with the budget exhausted. -/
theorem retry_zero (o : AttemptOracle) (k : Nat) :
    retry o 0 k =
      match o k with
      | AttemptOutcome.ok => Except.ok k
      | AttemptOutcome.fkViolation => Except.error AttemptOutcome.fkViolation
      | AttemptOutcome.otherError => Except.error AttemptOutcome.otherError := rfl

/-- A successful `retry` used at most `retries + 1` attempts: the attempt it
answers with lies within the budget window, succeeded, and every earlier
attempt in the window was the FK failure. -/
theorem retry_ok_spec (o : AttemptOracle) :
    ∀ (r k j : Nat), retry o r k = Except.ok j →
      k ≤ j ∧ j ≤ k + r ∧ o j = AttemptOutcome.ok ∧
      ∀ i, k ≤ i → i < j → o i = AttemptOutcome.fkViolation := by
  intro r
  induction r with
  | zero =>
    intro k j h
    rw [retry_zero] at h
    cases ho : o k with
    | ok =>
      rw [ho] at h
      obtain rfl : k = j := Except.ok.inj h
      exact ⟨Nat.le_refl _, by omega, ho, fun i h1 h2 => by omega⟩
    | fkViolation =>
      rw [ho] at h
      cases h
    | otherError =>
      rw [ho] at h
      cases h
  | succ r ih =>
    intro k j h
    rw [retry_succ] at h
    cases ho : o k with
    | ok =>
      rw [ho] at h
      obtain rfl : k = j := Except.ok.inj h
      exact ⟨Nat.le_refl _, by omega, ho, fun i h1 h2 => by omega⟩
    | fkViolation =>
      rw [ho] at h
      obtain ⟨h1, h2, h3, h4⟩ := ih (k + 1) j h
      refine ⟨by omega, by omega, h3, ?_⟩
      intro i hk hij
      rcases Nat.eq_or_lt_of_le hk with rfl | hlt
      · exact ho
      · exact h4 i (by omega) hij
    | otherError =>
      rw [ho] at h
      cases h

/-- `retry` rethrows the FK failure exactly when every attempt in the
budget window fails with it. -/
theorem retry_exhaust_fk (o : AttemptOracle) :
    ∀ (r k : Nat), retry o r k = Except.error AttemptOutcome.fkViolation ↔
      ∀ i, k ≤ i → i ≤ k + r → o i = AttemptOutcome.fkViolation := by
  intro r
  induction r with
  | zero =>
    intro k
    constructor
    · intro h i hk hik
      obtain rfl : k = i := by omega
      cases ho : o k with
      | ok =>
        rw [retry_zero, ho] at h
        cases h
      | fkViolation => rfl
      | otherError =>
        rw [retry_zero, ho] at h
        cases h
    · intro h
      rw [retry_zero, h k (Nat.le_refl _) (by omega)]
  | succ r ih =>
    intro k
    constructor
    · intro h i hk hik
      cases ho : o k with
      | ok =>
        rw [retry_succ, ho] at h
        cases h
      | otherError =>
        rw [retry_succ, ho] at h
        cases h
      | fkViolation =>
        rw [retry_succ, ho] at h
        rcases Nat.eq_or_lt_of_le hk with rfl | hlt
        · exact ho
        · exact (ih (k + 1)).mp h i (by omega) (by omega)
    · intro h
      rw [retry_succ, h k (Nat.le_refl _) (by omega)]
      exact (ih (k + 1)).mpr (fun i h1 h2 => h i (by omega) (by omega))

/-- When every attempt fails with the FK error and the data carries a
booking reference, `createNotificationSafe` degrades to the write without
the booking reference instead of failing. -/
theorem createNotificationSafe_fallback (o : AttemptOracle) (data : NotificationRec) (b : Nat)
    (hb : data.booking = some b)
    (hfk : ∀ i, i ≤ retryDefaultBudget → o i = AttemptOutcome.fkViolation) :
    createNotificationSafe o data = Except.ok { data with booking := none } := by
  have h : retry o retryDefaultBudget 0 = Except.error AttemptOutcome.fkViolation :=
    (retry_exhaust_fk o retryDefaultBudget 0).mpr (fun i h1 h2 => hfk i (by omega))
  simp [createNotificationSafe, h, hb]

/-- If any attempt in the window succeeds before a non-FK error occurs,
`createNotificationSafe` returns the record unchanged. -/
theorem createNotificationSafe_ok (o : AttemptOracle) (data : NotificationRec) (j : Nat)
    (h : retry o retryDefaultBudget 0 = Except.ok j) :
    createNotificationSafe o data = Except.ok data := by
  simp [createNotificationSafe, h]

/-! ## Cancellation-path lemmas -/

/-- After a keyed status update, every record carrying the key has the new
status. -/
theorem updateBookingStatus_id_status (bs : List BookingRec) (bid : Nat) (st : BStatus) :
    ∀ c ∈ updateBookingStatus bs bid st, c.id = bid → c.status = st := by
  intro c hc hid
  obtain ⟨b, hb, rfl⟩ := List.mem_map.mp hc
  by_cases h : b.id = bid
  · simp [h]
  · rw [if_neg (by simpa using h)] at hid
    exact absurd hid h

/-- `findByID` on bookings commutes with a keyed status update. -/
theorem findBookingById_update (bs : List BookingRec) (bid bid2 : Nat) (st : BStatus) :
    findBookingById (updateBookingStatus bs bid2 st) bid
      = (findBookingById bs bid).map
          (fun b => if b.id = bid2 then { b with status := st } else b) := by
  unfold findBookingById updateBookingStatus
  have := find?_key_map bs bid (fun b => if b.id = bid2 then { b with status := st } else b)
    (fun b => by by_cases h : b.id = bid2 <;> simp [h])
  simpa using this

/-- The bookings component after a promotion attempt with a candidate. -/
theorem promote_bookings_eq (no : NotifOracle) (eid t : Nat) (s : SysState) (c : BookingRec)
    (hp : oldestWaitlisted s.bookings eid t = some c) :
    (promoteOldestWaitlist no eid t s).1.bookings
      = updateBookingStatus s.bookings c.id BStatus.confirmed := by
  simp only [promoteOldestWaitlist, hp]
  split
  · rfl
  · simp [createBookingLog, bookingLogActionOptions]

/-- The bookings component after a promotion attempt without a candidate. -/
theorem promote_bookings_none (no : NotifOracle) (eid t : Nat) (s : SysState)
    (hp : oldestWaitlisted s.bookings eid t = none) :
    (promoteOldestWaitlist no eid t s).1.bookings = s.bookings := by
  simp only [promoteOldestWaitlist, hp]

/-- The update branch of the afterChange hook either leaves the bookings
untouched or flips exactly one stored waitlisted booking of the canceled
booking's event to Confirmed. -/
theorem afterChangeUpdate_bookings_cases (no : NotifOracle) (pd doc : BookingRec)
    (s : SysState) :
    (bookingAfterChangeUpdate no pd doc s).bookings = s.bookings ∨
    (pd.status = BStatus.confirmed ∧ doc.status = BStatus.canceled ∧
      ∃ c, c ∈ s.bookings ∧ c.status = BStatus.waitlisted ∧ c.event = doc.event ∧
        (bookingAfterChangeUpdate no pd doc s).bookings =
          updateBookingStatus s.bookings c.id BStatus.confirmed) := by
  unfold bookingAfterChangeUpdate
  split
  · exact Or.inl rfl
  · split
    · rename_i hcond
      have hpd : pd.status = BStatus.confirmed ∧ doc.status = BStatus.canceled := by
        simpa [Bool.and_eq_true, beq_iff_eq] using hcond
      dsimp only
      split
      · exact Or.inl rfl
      · rcases hp : oldestWaitlisted s.bookings doc.event doc.tenant with _ | c
        · exact Or.inl (promote_bookings_none no doc.event doc.tenant _ hp)
        · obtain ⟨hmem, hcand, _⟩ := oldestWaitlisted_spec s.bookings doc.event doc.tenant c hp
          have hc3 : c.event = doc.event ∧ c.status = BStatus.waitlisted := by
            have := hcand
            simp only [isWaitlistCandidate, Bool.and_eq_true, beq_iff_eq] at this
            exact ⟨this.1.1, this.1.2⟩
          exact Or.inr ⟨hpd.1, hpd.2, c, hmem, hc3.2, hc3.1,
            promote_bookings_eq no doc.event doc.tenant _ c hp⟩
    · dsimp only
      split
      · exact Or.inl rfl
      · exact Or.inl rfl

/-- The outcome of `cancelBooking` (success or error, and the returned
booking) does not depend on the notification oracle. -/
theorem cancel_outcome_oracle_indep (o1 o2 : NotifOracle) (u : UserRec) (bid : Nat)
    (s : SysState) :
    (cancelBooking o1 u bid s).2 = (cancelBooking o2 u bid s).2 := by
  unfold cancelBooking
  cases hf : findBookingById s.bookings bid with
  | none => rfl
  | some b0 =>
    dsimp only
    split_ifs <;> rfl

/-- A successful cancellation commits the status change: the returned
booking is Canceled and the store keeps it Canceled, whatever the
notification writes did. -/
theorem cancel_commits_status (no : NotifOracle) (u : UserRec) (bid : Nat) (s : SysState)
    (s2 : SysState) (doc : BookingRec)
    (h : cancelBooking no u bid s = (s2, Except.ok doc)) :
    doc.status = BStatus.canceled ∧ findBookingById s2.bookings bid = some doc := by
  unfold cancelBooking at h
  cases hf : findBookingById s.bookings bid with
  | none =>
    rw [hf] at h
    simp at h
  | some b0 =>
    rw [hf] at h
    have hkey2 : b0.id = bid := by
      have hf2 := hf
      unfold findBookingById at hf2
      have hp := List.find?_some hf2
      simpa using hp
    dsimp only at h
    split_ifs at h
    · simp at h
    · simp at h
    · simp only [Prod.mk.injEq, Except.ok.injEq] at h
      obtain ⟨hs2, hdoc⟩ := h
      subst hdoc
      refine ⟨rfl, ?_⟩
      subst hs2
      rcases afterChangeUpdate_bookings_cases no b0 { b0 with status := BStatus.canceled }
          { s with bookings := updateBookingStatus s.bookings bid BStatus.canceled }
        with hcase | ⟨_, _, c, hcmem, hcst, _, hcase⟩
      · rw [hcase]
        show findBookingById (updateBookingStatus s.bookings bid BStatus.canceled) bid = _
        rw [findBookingById_update, hf]
        simp [hkey2]
      · rw [hcase]
        have hcid : c.id ≠ bid := by
          intro hcid
          have := updateBookingStatus_id_status s.bookings bid BStatus.canceled c hcmem hcid
          rw [this] at hcst
          cases hcst
        show findBookingById (updateBookingStatus
            (updateBookingStatus s.bookings bid BStatus.canceled) c.id BStatus.confirmed) bid
          = _
        rw [findBookingById_update, findBookingById_update, hf]
        simp [hkey2, Ne.symm hcid]

/-- C7: notification emission retries the transient FK-visibility failure
up to the fixed budget of 5 retries with a 150 ms delay between attempts
(a successful `retry` used at most `retries + 1` attempts, all earlier ones
having failed with the FK error); when the window exhausts with the FK
error and the record carries the optional booking reference, the
notification is created with that reference omitted instead of failing; and
a notification-write failure neither changes the outcome of the
cancellation that triggered it nor rolls back its status change. -/
theorem C7_notification_retry :
    (∀ (o : AttemptOracle) (r k j : Nat), retry o r k = Except.ok j →
      k ≤ j ∧ j ≤ k + r ∧ o j = AttemptOutcome.ok ∧
      ∀ i, k ≤ i → i < j → o i = AttemptOutcome.fkViolation) ∧
    (∀ (o : AttemptOracle) (data : NotificationRec) (b : Nat),
      data.booking = some b →
      (∀ i, i ≤ retryDefaultBudget → o i = AttemptOutcome.fkViolation) →
      createNotificationSafe o data = Except.ok { data with booking := none }) ∧
    (∀ (o1 o2 : NotifOracle) (u : UserRec) (bid : Nat) (s : SysState),
      (cancelBooking o1 u bid s).2 = (cancelBooking o2 u bid s).2) ∧
    (∀ (no : NotifOracle) (u : UserRec) (bid : Nat) (s s2 : SysState) (doc : BookingRec),
      cancelBooking no u bid s = (s2, Except.ok doc) →
      doc.status = BStatus.canceled ∧ findBookingById s2.bookings bid = some doc) ∧
    retryDefaultBudget = 5 ∧ retryDelayMs = 150 :=
  ⟨retry_ok_spec, createNotificationSafe_fallback, cancel_outcome_oracle_indep,
   cancel_commits_status, rfl, rfl⟩

/-- Witness for C7: with every attempt failing on the FK error, the
notification carrying booking reference 50 is persisted without it. -/
theorem C7_witness :
    createNotificationSafe oFkAlways exNotifData
      = Except.ok { exNotifData with booking := none } :=
  C7_notification_retry.2.1 oFkAlways exNotifData 50 rfl (fun _ _ => rfl)

/-- Every promotion attempt records exactly one invocation. -/
theorem promote_promoterCalls (no : NotifOracle) (eid t : Nat) (s : SysState) :
    (promoteOldestWaitlist no eid t s).1.promoterCalls = s.promoterCalls ++ [(eid, t)] := by
  unfold promoteOldestWaitlist
  dsimp only
  split
  · rfl
  · split
    · rfl
    · unfold createBookingLog
      split <;> rfl

/-- The delete case of `bookingAfterOperation` never touches the promoter. -/
theorem afterOperationDelete_promoterCalls (doc : BookingRec) (s : SysState) :
    (bookingAfterOperationDelete doc s).promoterCalls = s.promoterCalls := by
  unfold bookingAfterOperationDelete
  split <;> (unfold createBookingLog; split <;> rfl)

/-- The create case of `bookingAfterOperation` never touches the promoter. -/
theorem afterOperationCreate_promoterCalls (doc : BookingRec) (s : SysState) :
    (bookingAfterOperationCreate doc s).promoterCalls = s.promoterCalls := by
  unfold bookingAfterOperationCreate createBookingLog
  split <;> rfl

/-- The update branch of the afterChange hook invokes the promoter when the
prior status was Confirmed, the new one Canceled, and the cancellation
notification write succeeded. -/
theorem afterChangeUpdate_promoterCalls_pos (no : NotifOracle) (pd doc : BookingRec)
    (s : SysState) (h1 : pd.status = BStatus.confirmed) (h2 : doc.status = BStatus.canceled)
    (h3 : (createNotificationSafe (no (cancelNotifRec doc)) (cancelNotifRec doc)).isOk
      = true) :
    (bookingAfterChangeUpdate no pd doc s).promoterCalls
      = s.promoterCalls ++ [(doc.event, doc.tenant)] := by
  unfold bookingAfterChangeUpdate
  rw [h1, h2]
  rw [if_neg (by decide)]
  rw [if_pos (by decide)]
  dsimp only
  rcases hcr : createNotificationSafe (no (cancelNotifRec doc)) (cancelNotifRec doc)
    with e | n
  · rw [hcr] at h3
    simp [Except.isOk, Except.toBool] at h3
  · exact promote_promoterCalls no doc.event doc.tenant _

/-- In every other situation the update branch leaves the promoter
uninvoked. -/
theorem afterChangeUpdate_promoterCalls_neg (no : NotifOracle) (pd doc : BookingRec)
    (s : SysState)
    (h : ¬(pd.status = BStatus.confirmed ∧ doc.status = BStatus.canceled ∧
      (createNotificationSafe (no (cancelNotifRec doc)) (cancelNotifRec doc)).isOk = true)) :
    (bookingAfterChangeUpdate no pd doc s).promoterCalls = s.promoterCalls := by
  unfold bookingAfterChangeUpdate
  split
  · rfl
  · split
    · rename_i hcond
      have h12 : pd.status = BStatus.confirmed ∧ doc.status = BStatus.canceled := by
        simpa [Bool.and_eq_true, beq_iff_eq] using hcond
      dsimp only
      rcases hcr : createNotificationSafe (no (cancelNotifRec doc)) (cancelNotifRec doc)
        with e | n
      · rfl
      · exfalso
        exact h ⟨h12.1, h12.2, by rw [hcr]; rfl⟩
    · dsimp only
      split <;> rfl

/-- The afterDelete hook invokes the promoter when the deleted booking was
Confirmed and the deletion notification write succeeded. -/
theorem afterDelete_promoterCalls_pos (no : NotifOracle) (doc : BookingRec) (s : SysState)
    (h1 : doc.status = BStatus.confirmed)
    (h3 : (createNotificationSafe (no (deleteNotifRec doc)) (deleteNotifRec doc)).isOk
      = true) :
    (bookingAfterDelete no doc s).promoterCalls
      = s.promoterCalls ++ [(doc.event, doc.tenant)] := by
  unfold bookingAfterDelete
  rw [h1]
  rw [if_neg (by decide)]
  dsimp only
  rcases hcr : createNotificationSafe (no (deleteNotifRec doc)) (deleteNotifRec doc)
    with e | n
  · rw [hcr] at h3
    simp [Except.isOk, Except.toBool] at h3
  · exact promote_promoterCalls no doc.event doc.tenant _

/-- Otherwise the afterDelete hook leaves the promoter uninvoked. -/
theorem afterDelete_promoterCalls_neg (no : NotifOracle) (doc : BookingRec) (s : SysState)
    (h : ¬(doc.status = BStatus.confirmed ∧
      (createNotificationSafe (no (deleteNotifRec doc)) (deleteNotifRec doc)).isOk = true)) :
    (bookingAfterDelete no doc s).promoterCalls = s.promoterCalls := by
  unfold bookingAfterDelete
  split
  · rfl
  · rename_i hcond
    have h1 : doc.status = BStatus.confirmed := by
      simpa using hcond
    dsimp only
    rcases hcr : createNotificationSafe (no (deleteNotifRec doc)) (deleteNotifRec doc)
      with e | n
    · rfl
    · exfalso
      exact h ⟨h1, by rw [hcr]; rfl⟩

/-- C6 (amended): the waitlist promoter is invoked exactly when a booking
whose prior status was Confirmed is canceled or deleted and the
corresponding cancellation/deletion notification write succeeds (possibly
through the omit-booking fallback); a notification write that fails
irrecoverably skips the promotion, since both run in one try block.  In
particular, with side-effect writes succeeding, cancellation or deletion of
a Confirmed booking invokes the promoter once, for that booking's
(event, tenant), and cancellation or deletion of a Waitlisted or Canceled
booking never invokes it. -/
theorem C6_promotion_trigger (o : NotifOracle) :
    (∀ (u : UserRec) (bid : Nat) (s s2 : SysState) (doc b0 : BookingRec),
      findBookingById s.bookings bid = some b0 →
      cancelBooking o u bid s = (s2, Except.ok doc) →
      (s2.promoterCalls = s.promoterCalls ++ [(b0.event, b0.tenant)] ↔
        b0.status = BStatus.confirmed ∧
        (createNotificationSafe (o (cancelNotifRec doc)) (cancelNotifRec doc)).isOk = true) ∧
      (s2.promoterCalls = s.promoterCalls ∨
        s2.promoterCalls = s.promoterCalls ++ [(b0.event, b0.tenant)])) ∧
    (∀ (bid : Nat) (s s2 : SysState) (doc : BookingRec),
      deleteBooking o bid s = (s2, Except.ok doc) →
      (s2.promoterCalls = s.promoterCalls ++ [(doc.event, doc.tenant)] ↔
        doc.status = BStatus.confirmed ∧
        (createNotificationSafe (o (deleteNotifRec doc)) (deleteNotifRec doc)).isOk = true) ∧
      (s2.promoterCalls = s.promoterCalls ∨
        s2.promoterCalls = s.promoterCalls ++ [(doc.event, doc.tenant)])) := by
  have hne : ∀ (l : List (Nat × Nat)) (x : Nat × Nat), l ≠ l ++ [x] := by
    intro l x h
    have := congrArg List.length h
    simp at this
  constructor
  · intro u bid s s2 doc b0 hf hC
    unfold cancelBooking at hC
    rw [hf] at hC
    dsimp only at hC
    split_ifs at hC
    · simp at hC
    · simp at hC
    · simp only [Prod.mk.injEq, Except.ok.injEq] at hC
      obtain ⟨hs2, hdoc⟩ := hC
      subst hdoc
      subst hs2
      by_cases hok : b0.status = BStatus.confirmed ∧
          (createNotificationSafe (o (cancelNotifRec { b0 with status := BStatus.canceled }))
            (cancelNotifRec { b0 with status := BStatus.canceled })).isOk = true
      · have hpos := afterChangeUpdate_promoterCalls_pos o b0
          { b0 with status := BStatus.canceled }
          { s with bookings := updateBookingStatus s.bookings bid BStatus.canceled }
          hok.1 rfl hok.2
        constructor
        · constructor
          · intro _
            exact hok
          · intro _
            exact hpos
        · exact Or.inr hpos
      · have hneg := afterChangeUpdate_promoterCalls_neg o b0
          { b0 with status := BStatus.canceled }
          { s with bookings := updateBookingStatus s.bookings bid BStatus.canceled }
          (by
            intro hcon
            exact hok ⟨hcon.1, hcon.2.2⟩)
        constructor
        · constructor
          · intro heq
            rw [hneg] at heq
            exact absurd heq (hne _ _)
          · intro hcon
            exact absurd hcon hok
        · exact Or.inl hneg
  · intro bid s s2 doc hC
    unfold deleteBooking at hC
    cases hf : findBookingById s.bookings bid with
    | none =>
      rw [hf] at hC
      simp at hC
    | some d0 =>
      rw [hf] at hC
      simp only [Prod.mk.injEq, Except.ok.injEq] at hC
      obtain ⟨hs2, hdoc⟩ := hC
      subst hdoc
      subst hs2
      rw [afterOperationDelete_promoterCalls]
      by_cases hok : d0.status = BStatus.confirmed ∧
          (createNotificationSafe (o (deleteNotifRec d0)) (deleteNotifRec d0)).isOk = true
      · have hpos := afterDelete_promoterCalls_pos o d0
          { s with bookings := s.bookings.filter (fun b => !(b.id == bid)) } hok.1 hok.2
        constructor
        · constructor
          · intro _
            exact hok
          · intro _
            exact hpos
        · exact Or.inr hpos
      · have hneg := afterDelete_promoterCalls_neg o d0
          { s with bookings := s.bookings.filter (fun b => !(b.id == bid)) } hok
        constructor
        · constructor
          · intro heq
            rw [hneg] at heq
            exact absurd heq (hne _ _)
          · intro hcon
            exact absurd hcon hok
        · exact Or.inl hneg

/-- Witness for C6: cancelling the confirmed booking of the concrete store
with all side-effect writes succeeding invokes the promoter once, for its
(event, tenant). -/
theorem C6_witness :
    (cancelBooking allOk exUserA 10 exC6State).1.promoterCalls
      = exC6State.promoterCalls ++ [(0, 0)] := by
  have h := ((C6_promotion_trigger allOk).1 exUserA 10 exC6State
    (cancelBooking allOk exUserA 10 exC6State).1
    { exConfBooking with status := BStatus.canceled } exConfBooking rfl rfl).1
  exact h.mpr ⟨rfl, rfl⟩

/-- C6 counterexample: when the cancellation notification write fails with
a non-FK storage error, cancelling a Confirmed booking succeeds but the
promoter is never invoked — the claimed "if and only if" fails on the
forward direction. -/
theorem C6_counterexample :
    exConfBooking.status = BStatus.confirmed ∧
    (cancelBooking oErr exUserA 10 exC6State).2
      = Except.ok { exConfBooking with status := BStatus.canceled } ∧
    (cancelBooking oErr exUserA 10 exC6State).1.promoterCalls = [] ∧
    oldestWaitlisted exC6State.bookings 0 0 = some exC6Waitlisted :=
  ⟨rfl, rfl, rfl, rfl⟩

/-! ## Idempotent cancellation lemmas (C4) -/

/-- Writing a record's own status back leaves it unchanged. -/
theorem setStatus_self (b : BookingRec) (st : BStatus) (h : b.status = st) :
    { b with status := st } = b := by
  cases b
  simp_all

/-- A keyed status update writing a status every keyed record already has
is the identity. -/
theorem updateBookingStatus_eq_self (bs : List BookingRec) (bid : Nat) (st : BStatus)
    (h : ∀ b ∈ bs, b.id = bid → b.status = st) :
    updateBookingStatus bs bid st = bs := by
  unfold updateBookingStatus
  have : ∀ b ∈ bs, (if b.id == bid then { b with status := st } else b) = id b := by
    intro b hb
    by_cases hid : b.id = bid
    · rw [if_pos (show (b.id == bid) = true by simp [hid])]
      exact setStatus_self b st (h b hb hid)
    · simp [hid]
  rw [List.map_congr_left this, List.map_id]

/-- On every non-error path, `cancelBooking` is the update plus the update
branch of the afterChange hook. -/
theorem cancel_shape (no : NotifOracle) (u : UserRec) (bid : Nat) (s : SysState)
    (b0 : BookingRec) (hf : findBookingById s.bookings bid = some b0)
    (hg1 : ¬(!(u.role == Role.superAdmin) && !(u.tenant == some b0.tenant)) = true)
    (hg2 : ¬(u.role == Role.attendee && !(b0.user == u.id)) = true) :
    cancelBooking no u bid s =
      (bookingAfterChangeUpdate no b0 { b0 with status := BStatus.canceled }
        { s with bookings := updateBookingStatus s.bookings bid BStatus.canceled },
       Except.ok { b0 with status := BStatus.canceled }) := by
  unfold cancelBooking
  rw [hf]
  dsimp only
  rw [if_neg hg1, if_neg hg2]

/-- Cancelling an already-canceled booking succeeds and changes nothing:
the status write is the identity and the hook sees no status change, so no
notification, log or promotion is emitted. -/
theorem cancel_already_canceled (no : NotifOracle) (u : UserRec) (bid : Nat) (s : SysState)
    (b0 : BookingRec) (hf : findBookingById s.bookings bid = some b0)
    (hnd : (s.bookings.map BookingRec.id).Nodup)
    (hcan : b0.status = BStatus.canceled)
    (ht : u.role = Role.superAdmin ∨ u.tenant = some b0.tenant)
    (ha : u.role = Role.attendee → b0.user = u.id) :
    cancelBooking no u bid s = (s, Except.ok b0) := by
  have hg1 : ¬(!(u.role == Role.superAdmin) && !(u.tenant == some b0.tenant)) = true := by
    rcases ht with h | h <;> simp [h]
  have hg2 : ¬(u.role == Role.attendee && !(b0.user == u.id)) = true := by
    by_cases hr : u.role = Role.attendee
    · simp [hr, ha hr]
    · have hb : (u.role == Role.attendee) = false := beq_eq_false_iff_ne.mpr hr
      simp [hb]
  rw [cancel_shape no u bid s b0 hf hg1 hg2]
  have hkey2 : b0.id = bid := by
    have hf2 := hf
    unfold findBookingById at hf2
    have hp := List.find?_some hf2
    simpa using hp
  have hupd : updateBookingStatus s.bookings bid BStatus.canceled = s.bookings := by
    apply updateBookingStatus_eq_self
    intro b hb hid
    have hbmem : b ∈ s.bookings.filter (fun x => x.id == b0.id) := by
      rw [List.mem_filter]
      exact ⟨hb, by simp [hid, hkey2]⟩
    rw [filter_key_eq_single s.bookings b0 hnd (by
      have := hf
      unfold findBookingById at this
      exact List.mem_of_find?_eq_some this)] at hbmem
    have : b = b0 := by simpa using hbmem
    rw [this, hcan]
  rw [hupd]
  rw [setStatus_self b0 BStatus.canceled hcan]
  unfold bookingAfterChangeUpdate
  rw [if_pos (by simp)]

/-- With every storage write succeeding, `createNotificationSafe` persists
the record as given. -/
theorem createNotificationSafe_allOk (data : NotificationRec) :
    createNotificationSafe (allOk data) data = Except.ok data := rfl

/-- A notification persisted by `createNotificationSafe` keeps the type of
the record handed to it (only the booking reference may be dropped). -/
theorem createNotificationSafe_ntype (o : AttemptOracle) (data n : NotificationRec)
    (h : createNotificationSafe o data = Except.ok n) : n.ntype = data.ntype := by
  unfold createNotificationSafe at h
  split at h
  · rw [← Except.ok.inj h]
  · split at h
    · rw [← Except.ok.inj h]
    · cases h
  · cases h

/-- A promotion attempt appends only waitlist-promotion notifications. -/
theorem promote_notifications (no : NotifOracle) (eid t : Nat) (s : SysState) :
    ∃ extra, (promoteOldestWaitlist no eid t s).1.notifications = s.notifications ++ extra ∧
      ∀ n ∈ extra, n.ntype = NotifType.waitlist_promoted := by
  unfold promoteOldestWaitlist
  dsimp only
  split
  · exact ⟨[], by simp⟩
  · split
    · exact ⟨[], by simp⟩
    · rename_i n hcr
      refine ⟨[n], ?_, ?_⟩
      · unfold createBookingLog
        split <;> rfl
      · intro x hx
        have hx2 : x = n := by simpa using hx
        subst hx2
        exact createNotificationSafe_ntype _ _ x hcr

/-- A promotion attempt appends only promote-from-waitlist log entries. -/
theorem promote_logs (no : NotifOracle) (eid t : Nat) (s : SysState) :
    ∃ extra, (promoteOldestWaitlist no eid t s).1.logs = s.logs ++ extra ∧
      ∀ l ∈ extra, l.action = LogAction.promote_from_waitlist := by
  unfold promoteOldestWaitlist
  dsimp only
  split
  · exact ⟨[], by simp⟩
  · split
    · exact ⟨[], by simp⟩
    · unfold createBookingLog
      split
      · refine ⟨[_], rfl, ?_⟩
        intro x hx
        have hx2 := by simpa using hx
        rw [hx2]
      · exact ⟨[], by simp⟩

/-- With all side-effect writes succeeding, the update branch of the
afterChange hook for a transition into Canceled appends exactly one
cancellation notification, and every appended audit entry (if any) is the
promotion's. -/
theorem afterChangeUpdate_sideeffects_allOk (pd doc0 : BookingRec) (sU : SysState)
    (hchg : pd.status ≠ doc0.status) (hcan : doc0.status = BStatus.canceled) :
    ∃ extraN extraL,
      (bookingAfterChangeUpdate allOk pd doc0 sU).notifications
        = sU.notifications ++ extraN ∧
      (bookingAfterChangeUpdate allOk pd doc0 sU).logs = sU.logs ++ extraL ∧
      (extraN.filter (fun n => n.ntype == NotifType.booking_canceled)).length = 1 ∧
      (∀ l ∈ extraL, l.action = LogAction.promote_from_waitlist) := by
  unfold bookingAfterChangeUpdate
  rw [if_neg (by simp [hchg])]
  by_cases hpd : pd.status = BStatus.confirmed
  · rw [if_pos (by simp [hpd, hcan])]
    dsimp only
    rw [createNotificationSafe_allOk (cancelNotifRec doc0)]
    dsimp only
    obtain ⟨eN, heN, heN2⟩ := promote_notifications allOk doc0.event doc0.tenant
      { sU with notifications := sU.notifications ++ [cancelNotifRec doc0] }
    obtain ⟨eL, heL, heL2⟩ := promote_logs allOk doc0.event doc0.tenant
      { sU with notifications := sU.notifications ++ [cancelNotifRec doc0] }
    refine ⟨cancelNotifRec doc0 :: eN, eL, ?_, ?_, ?_, heL2⟩
    · rw [heN]
      simp
    · exact heL
    · have hnil : eN.filter (fun n => n.ntype == NotifType.booking_canceled) = [] := by
        rw [List.filter_eq_nil_iff]
        intro a ha
        simp [heN2 a ha]
      simp [List.filter_cons, hnil, cancelNotifRec]
  · rw [if_neg (by simp [hpd])]
    dsimp only
    rw [createNotificationSafe_allOk]
    dsimp only
    refine ⟨[_], [], rfl, by simp, ?_, by simp⟩
    simp [List.filter_cons, hcan, notifTypeOfStatus]

/-- A successful cancellation preserves the stored booking ids. -/
theorem cancel_bookings_ids (no : NotifOracle) (u : UserRec) (bid : Nat) (s s1 : SysState)
    (doc : BookingRec) (h : cancelBooking no u bid s = (s1, Except.ok doc)) :
    s1.bookings.map BookingRec.id = s.bookings.map BookingRec.id := by
  unfold cancelBooking at h
  cases hf : findBookingById s.bookings bid with
  | none =>
    rw [hf] at h
    simp at h
  | some b0 =>
    rw [hf] at h
    dsimp only at h
    split_ifs at h
    · simp at h
    · simp at h
    · simp only [Prod.mk.injEq] at h
      obtain ⟨hs1, _⟩ := h
      subst hs1
      rcases afterChangeUpdate_bookings_cases no b0 { b0 with status := BStatus.canceled }
          { s with bookings := updateBookingStatus s.bookings bid BStatus.canceled }
        with hcase | ⟨_, _, c, _, _, _, hcase⟩
      · rw [hcase]
        exact updateBookingStatus_map_id s.bookings bid BStatus.canceled
      · rw [hcase]
        rw [updateBookingStatus_map_id]
        exact updateBookingStatus_map_id s.bookings bid BStatus.canceled

/-- C4 (amended): cancellation is idempotent — cancelling an
already-Canceled booking succeeds and changes nothing, and cancelling the
same booking twice produces one status transition and one cancellation
notification; the cancellation itself writes no audit entry (the audit log
grows only by the promotion entry when a waitlisted booking is promoted),
so the log gains promote-from-waitlist entries only, not a cancellation
entry. -/
theorem C4_idempotent_cancellation (u : UserRec) (bid : Nat) (s : SysState)
    (b0 : BookingRec)
    (hf : findBookingById s.bookings bid = some b0)
    (hnd : (s.bookings.map BookingRec.id).Nodup)
    (ht : u.role = Role.superAdmin ∨ u.tenant = some b0.tenant)
    (ha : u.role = Role.attendee → b0.user = u.id) :
    (b0.status = BStatus.canceled → cancelBooking allOk u bid s = (s, Except.ok b0)) ∧
    (b0.status ≠ BStatus.canceled →
      ∀ s1 doc, cancelBooking allOk u bid s = (s1, Except.ok doc) →
        cancelBooking allOk u bid s1 = (s1, Except.ok doc) ∧
        (s1.notifications.filter (fun n => n.ntype == NotifType.booking_canceled)).length
          = (s.notifications.filter (fun n => n.ntype == NotifType.booking_canceled)).length
            + 1 ∧
        (∀ l ∈ s1.logs, l ∈ s.logs ∨ l.action = LogAction.promote_from_waitlist)) := by
  constructor
  · intro hcan
    exact cancel_already_canceled allOk u bid s b0 hf hnd hcan ht ha
  · intro hncan s1 doc hC
    have hg1 : ¬(!(u.role == Role.superAdmin) && !(u.tenant == some b0.tenant)) = true := by
      rcases ht with h | h <;> simp [h]
    have hg2 : ¬(u.role == Role.attendee && !(b0.user == u.id)) = true := by
      by_cases hr : u.role = Role.attendee
      · simp [hr, ha hr]
      · have hb : (u.role == Role.attendee) = false := beq_eq_false_iff_ne.mpr hr
        simp [hb]
    have hshape := cancel_shape allOk u bid s b0 hf hg1 hg2
    have hC2 := hC
    rw [hshape] at hC2
    simp only [Prod.mk.injEq, Except.ok.injEq] at hC2
    obtain ⟨hs1, hdoc⟩ := hC2
    have hcommit := cancel_commits_status allOk u bid s s1 doc hC
    have hids := cancel_bookings_ids allOk u bid s s1 doc hC
    have hnd1 : (s1.bookings.map BookingRec.id).Nodup := by
      rw [hids]
      exact hnd
    have hsecond := cancel_already_canceled allOk u bid s1 doc hcommit.2 hnd1 hcommit.1
      (by
        rcases ht with h | h
        · exact Or.inl h
        · right
          rw [← hdoc]
          exact h)
      (fun hr => by
        rw [← hdoc]
        exact ha hr)
    obtain ⟨eN, eL, heN, heL, hcount, hlp⟩ :=
      afterChangeUpdate_sideeffects_allOk b0 { b0 with status := BStatus.canceled }
        { s with bookings := updateBookingStatus s.bookings bid BStatus.canceled }
        (by simpa using hncan) rfl
    refine ⟨hsecond, ?_, ?_⟩
    · rw [← hs1, heN, List.filter_append, List.length_append, hcount]
    · intro l hl
      rw [← hs1, heL] at hl
      rcases List.mem_append.mp hl with h | h
      · exact Or.inl h
      · exact Or.inr (hlp l h)

/-- Witness for C4: cancelling the already-canceled booking of the
concrete store returns success and the unchanged state. -/
theorem C4_witness :
    cancelBooking allOk exUserA 10 exDupState = (exDupState, Except.ok exCanceledBooking) :=
  (C4_idempotent_cancellation exUserA 10 exDupState exCanceledBooking rfl (by decide)
    (Or.inr rfl) (fun _ => rfl)).1 rfl

/-- C4 counterexample: cancelling a Confirmed booking with no waitlist
behind it, twice, yields success both times but zero audit entries — not
the "exactly one audit entry" the claim demands. -/
theorem C4_counterexample :
    exConfBooking.status = BStatus.confirmed ∧
    (cancelBooking allOk exUserA 10 exCancelState).2
      = Except.ok { exConfBooking with status := BStatus.canceled } ∧
    ((cancelBooking allOk exUserA 10
        (cancelBooking allOk exUserA 10 exCancelState).1).1.logs).length = 0 ∧
    ((cancelBooking allOk exUserA 10
        (cancelBooking allOk exUserA 10 exCancelState).1).1.notifications).length = 1 :=
  ⟨rfl, rfl, rfl, rfl⟩

/-- The update branch of the afterChange hook appends only
promote-from-waitlist audit entries, whatever the transition. -/
theorem afterChangeUpdate_logs (no : NotifOracle) (pd doc : BookingRec) (s : SysState) :
    ∃ extra, (bookingAfterChangeUpdate no pd doc s).logs = s.logs ++ extra ∧
      ∀ l ∈ extra, l.action = LogAction.promote_from_waitlist := by
  unfold bookingAfterChangeUpdate
  split
  · exact ⟨[], by simp⟩
  · split
    · dsimp only
      split
      · exact ⟨[], by simp⟩
      · obtain ⟨e, he, he2⟩ := promote_logs no doc.event doc.tenant _
        exact ⟨e, he, he2⟩
    · dsimp only
      split
      · exact ⟨[], by simp⟩
      · exact ⟨[], by simp⟩

/-- A successful cancellation never writes a cancellation audit entry: the
log grows only by the promotion's entry, if a promotion happened. -/
theorem cancel_logs_only_promotion (no : NotifOracle) (u : UserRec) (bid : Nat)
    (s s1 : SysState) (doc : BookingRec)
    (h : cancelBooking no u bid s = (s1, Except.ok doc)) :
    ∃ extra, s1.logs = s.logs ++ extra ∧
      ∀ l ∈ extra, l.action = LogAction.promote_from_waitlist := by
  unfold cancelBooking at h
  cases hf : findBookingById s.bookings bid with
  | none =>
    rw [hf] at h
    simp at h
  | some b0 =>
    rw [hf] at h
    dsimp only at h
    split_ifs at h
    · simp at h
    · simp at h
    · simp only [Prod.mk.injEq] at h
      obtain ⟨hs1, _⟩ := h
      subst hs1
      obtain ⟨e, he, he2⟩ := afterChangeUpdate_logs no b0 { b0 with status := BStatus.canceled }
        { s with bookings := updateBookingStatus s.bookings bid BStatus.canceled }
      exact ⟨e, he, he2⟩

/-- The afterDelete hook appends only promote-from-waitlist audit
entries. -/
theorem afterDelete_logs (no : NotifOracle) (doc : BookingRec) (s : SysState) :
    ∃ extra, (bookingAfterDelete no doc s).logs = s.logs ++ extra ∧
      ∀ l ∈ extra, l.action = LogAction.promote_from_waitlist := by
  unfold bookingAfterDelete
  split
  · exact ⟨[], by simp⟩
  · dsimp only
    split
    · exact ⟨[], by simp⟩
    · obtain ⟨e, he, he2⟩ := promote_logs no doc.event doc.tenant _
      exact ⟨e, he, he2⟩

/-- Deleting a confirmed booking appends the `cancel_confirmed` audit
entry. -/
theorem afterOperationDelete_logs_confirmed (doc : BookingRec) (s : SysState)
    (h : doc.status = BStatus.confirmed) :
    (bookingAfterOperationDelete doc s).logs = s.logs ++
      [{ booking := doc.id, event := doc.event, user := doc.user,
         action := LogAction.cancel_confirmed, note := "Confirmed booking was deleted",
         tenant := doc.tenant }] := by
  unfold bookingAfterOperationDelete
  rw [if_pos (by simp [h])]
  unfold createBookingLog
  dsimp only
  rw [if_pos (by decide)]

/-- Deleting an unconfirmed booking attempts a `cancel_unconfirmed` audit
entry, which the booking-logs schema rejects: nothing is persisted. -/
theorem afterOperationDelete_logs_unconfirmed (doc : BookingRec) (s : SysState)
    (h : doc.status ≠ BStatus.confirmed) :
    (bookingAfterOperationDelete doc s).logs = s.logs := by
  unfold bookingAfterOperationDelete
  rw [if_neg (by simp [h])]
  unfold createBookingLog
  dsimp only
  rw [if_neg (by decide)]

/-- Audit behaviour of deletion: a confirmed booking yields possible
promotion entries followed by the one `cancel_confirmed` entry; an
unconfirmed booking yields no audit entry at all. -/
theorem delete_logs_rule (no : NotifOracle) (bid : Nat) (s s1 : SysState) (doc : BookingRec)
    (h : deleteBooking no bid s = (s1, Except.ok doc)) :
    (doc.status = BStatus.confirmed →
      ∃ pre, s1.logs = (s.logs ++ pre) ++
          [{ booking := doc.id, event := doc.event, user := doc.user,
             action := LogAction.cancel_confirmed, note := "Confirmed booking was deleted",
             tenant := doc.tenant }] ∧
        ∀ l ∈ pre, l.action = LogAction.promote_from_waitlist) ∧
    (doc.status ≠ BStatus.confirmed → s1.logs = s.logs) := by
  unfold deleteBooking at h
  cases hf : findBookingById s.bookings bid with
  | none =>
    rw [hf] at h
    simp at h
  | some d0 =>
    rw [hf] at h
    simp only [Prod.mk.injEq, Except.ok.injEq] at h
    obtain ⟨hs1, hdoc⟩ := h
    subst hdoc
    subst hs1
    obtain ⟨e, he, he2⟩ := afterDelete_logs no d0
      { s with bookings := s.bookings.filter (fun b => !(b.id == bid)) }
    constructor
    · intro hconf
      refine ⟨e, ?_, he2⟩
      rw [afterOperationDelete_logs_confirmed d0 _ hconf, he]
    · intro hnconf
      rw [afterOperationDelete_logs_unconfirmed d0 _ hnconf, he]
      have : e = [] := by
        revert he
        unfold bookingAfterDelete
        rw [if_pos (by simp [hnconf])]
        intro he
        have := congrArg List.length he
        simpa using this.symm
      rw [this, List.append_nil]

/-- C8 (amended): a successful cancellation emits a BookingCanceled
notification but writes no cancellation audit entry — the log grows only
by the promotion entry; the `CancelConfirmed` action is written only by
the deletion path (and `CancelUnconfirmed`, attempted on deletion of an
unconfirmed booking, is rejected by the booking-logs schema, so nothing is
persisted there).  Consequently, in the capacity-2 scenario where A, B, C
submit in order and then A cancels, A and B are Confirmed, C is Waitlisted
and then promoted to Confirmed, and the audit log contains, in order:
AutoConfirm(A), AutoConfirm(B), AutoWaitlist(C), PromoteFromWaitlist(C) —
with no CancelConfirmed(A) entry. -/
theorem C8_audit_trail :
    (scenario3.bookings.map (fun b => (b.user, b.status))
        = [(1, BStatus.confirmed), (2, BStatus.confirmed), (3, BStatus.waitlisted)] ∧
      scenario4.bookings.map (fun b => (b.user, b.status))
        = [(1, BStatus.canceled), (2, BStatus.confirmed), (3, BStatus.confirmed)] ∧
      scenario4.logs.map (fun l => (l.action, l.user))
        = [(LogAction.auto_confirm, 1), (LogAction.auto_confirm, 2),
           (LogAction.auto_waitlist, 3), (LogAction.promote_from_waitlist, 3)] ∧
      scenario4.notifications.map (fun n => (n.ntype, n.user))
        = [(NotifType.booking_confirmed, 1), (NotifType.booking_confirmed, 2),
           (NotifType.waitlisted, 3), (NotifType.booking_canceled, 1),
           (NotifType.waitlist_promoted, 3)]) ∧
    (∀ (no : NotifOracle) (u : UserRec) (bid : Nat) (s s1 : SysState) (doc : BookingRec),
      cancelBooking no u bid s = (s1, Except.ok doc) →
      ∃ extra, s1.logs = s.logs ++ extra ∧
        ∀ l ∈ extra, l.action = LogAction.promote_from_waitlist) ∧
    (∀ (no : NotifOracle) (bid : Nat) (s s1 : SysState) (doc : BookingRec),
      deleteBooking no bid s = (s1, Except.ok doc) →
      (doc.status = BStatus.confirmed →
        ∃ pre, s1.logs = (s.logs ++ pre) ++
            [{ booking := doc.id, event := doc.event, user := doc.user,
               action := LogAction.cancel_confirmed,
               note := "Confirmed booking was deleted", tenant := doc.tenant }] ∧
          ∀ l ∈ pre, l.action = LogAction.promote_from_waitlist) ∧
      (doc.status ≠ BStatus.confirmed → s1.logs = s.logs)) :=
  ⟨⟨rfl, rfl, rfl, rfl⟩, cancel_logs_only_promotion, delete_logs_rule⟩

/-- Witness for C8's universal parts at the concrete store: the log after
cancelling the confirmed booking extends the old log with
promote-from-waitlist entries only. -/
theorem C8_witness :
    ∃ extra, (cancelBooking allOk exUserA 10 exC6State).1.logs
        = exC6State.logs ++ extra ∧
      ∀ l ∈ extra, l.action = LogAction.promote_from_waitlist :=
  C8_audit_trail.2.1 allOk exUserA 10 exC6State
    (cancelBooking allOk exUserA 10 exC6State).1
    { exConfBooking with status := BStatus.canceled } rfl

/-- C8 counterexample: the scenario's audit log has four entries and no
CancelConfirmed(A) — it is not the claimed five-entry sequence. -/
theorem C8_counterexample :
    scenario4.logs.map (fun l => l.action)
      = [LogAction.auto_confirm, LogAction.auto_confirm, LogAction.auto_waitlist,
         LogAction.promote_from_waitlist] ∧
    scenario4.logs.map (fun l => l.action)
      ≠ [LogAction.auto_confirm, LogAction.auto_confirm, LogAction.auto_waitlist,
         LogAction.cancel_confirmed, LogAction.promote_from_waitlist] ∧
    ∀ l ∈ scenario4.logs, l.action ≠ LogAction.cancel_confirmed := by
  refine ⟨rfl, ?_, ?_⟩
  · intro h
    rw [show scenario4.logs.map (fun l => l.action)
        = [LogAction.auto_confirm, LogAction.auto_confirm, LogAction.auto_waitlist,
           LogAction.promote_from_waitlist] from rfl] at h
    simp at h
  · intro l hl
    have hmap : l.action ∈ scenario4.logs.map (fun x => x.action) :=
      List.mem_map_of_mem _ hl
    rw [show scenario4.logs.map (fun x => x.action)
        = [LogAction.auto_confirm, LogAction.auto_confirm, LogAction.auto_waitlist,
           LogAction.promote_from_waitlist] from rfl] at hmap
    intro hact
    rw [hact] at hmap
    simp at hmap

/-! ## Capacity-preservation machinery (C1) -/

/-- `findByID` on events returns a stored event carrying the requested id. -/
theorem findEventById_mem (es : List EventRec) (eid : Nat) (ev : EventRec)
    (h : findEventById es eid = some ev) : ev ∈ es ∧ ev.id = eid := by
  have h2 : es.find? (fun e => e.id == eid) = some ev := h
  refine ⟨List.mem_of_find?_eq_some h2, ?_⟩
  have hp := List.find?_some h2
  simpa using hp

/-- With unique event ids, `findByID` locates any stored event by its id. -/
theorem findEventById_of_mem (es : List EventRec) (e : EventRec)
    (hnd : (es.map EventRec.id).Nodup) (hmem : e ∈ es) :
    findEventById es e.id = some e := by
  induction es with
  | nil => cases hmem
  | cons h t ih =>
    rw [List.map_cons, List.nodup_cons] at hnd
    rcases List.mem_cons.mp hmem with rfl | hmem2
    · simp [findEventById, List.find?_cons]
    · have hne : (h.id == e.id) = false := by
        rw [beq_eq_false_iff_ne]
        intro he
        exact hnd.1 (he ▸ List.mem_map_of_mem EventRec.id hmem2)
      simp only [findEventById, List.find?_cons, hne]
      exact ih hnd.2 hmem2

/-- With unique event ids, a stored event carrying the id `findByID`
answered for is the answered event itself. -/
theorem findEventById_unique (es : List EventRec) (eid : Nat) (ev e : EventRec)
    (hnd : (es.map EventRec.id).Nodup) (hfind : findEventById es eid = some ev)
    (hmem : e ∈ es) (hid : e.id = eid) : e = ev := by
  have h1 := findEventById_of_mem es e hnd hmem
  rw [hid, hfind] at h1
  exact (Option.some.inj h1).symm

/-- On a tenant-aligned store, the tenant-scoped confirmed count the
beforeChange hook computes coincides with the all-tenant confirmed count
bounded by the invariant. -/
theorem countConfirmedTenant_eq_all (bs : List BookingRec) (eid t : Nat)
    (hal : ∀ b ∈ bs, b.event = eid → b.tenant = t) :
    countConfirmedTenant bs eid t = confirmedCountAll bs eid := by
  unfold countConfirmedTenant confirmedCountAll
  congr 1
  apply List.filter_congr
  intro b hb
  by_cases he : b.event = eid
  · have ht := hal b hb he
    simp [he, ht]
  · simp [he]

/-- The all-tenant confirmed count over an appended booking. -/
theorem confirmedCountAll_append (bs : List BookingRec) (b : BookingRec) (eid : Nat) :
    confirmedCountAll (bs ++ [b]) eid =
      confirmedCountAll bs eid +
        (if b.event = eid ∧ b.status = BStatus.confirmed then 1 else 0) := by
  unfold confirmedCountAll
  rw [List.filter_append, List.length_append]
  congr 1
  by_cases h1 : b.event = eid
  · by_cases h2 : b.status = BStatus.confirmed
    · simp [h1, h2]
    · simp [h1, h2]
  · simp [h1]

/-- Writing status Canceled to one stored booking removes exactly that
booking's contribution to the confirmed count. -/
theorem confirmedCountAll_cancel_update (bs : List BookingRec) (b0 : BookingRec) (eid : Nat)
    (hnd : (bs.map BookingRec.id).Nodup) (hmem : b0 ∈ bs) :
    confirmedCountAll (updateBookingStatus bs b0.id BStatus.canceled) eid
        + (if b0.event = eid ∧ b0.status = BStatus.confirmed then 1 else 0)
      = confirmedCountAll bs eid := by
  rw [confirmedCountAll_eq_countP, confirmedCountAll_eq_countP]
  have h := countP_updateBookingStatus
      (fun b => b.event == eid && b.status == BStatus.confirmed) bs b0 BStatus.canceled hnd hmem
  dsimp only at h
  have hcc : (BStatus.canceled == BStatus.confirmed) = false := by decide
  simp only [hcc, Bool.and_false, Bool.false_eq_true, if_false, Nat.add_zero] at h
  have hiff : ((b0.event == eid && b0.status == BStatus.confirmed) = true)
      ↔ (b0.event = eid ∧ b0.status = BStatus.confirmed) := by
    simp
  rw [if_congr hiff rfl rfl] at h
  exact h

/-- Removing one stored booking removes exactly its contribution to the
confirmed count. -/
theorem confirmedCountAll_remove (bs : List BookingRec) (b0 : BookingRec) (eid : Nat)
    (hnd : (bs.map BookingRec.id).Nodup) (hmem : b0 ∈ bs) :
    confirmedCountAll (bs.filter (fun b => !(b.id == b0.id))) eid
        + (if b0.event = eid ∧ b0.status = BStatus.confirmed then 1 else 0)
      = confirmedCountAll bs eid := by
  rw [confirmedCountAll_eq_countP, confirmedCountAll_eq_countP]
  have h := countP_filter_ne_key
      (fun b => b.event == eid && b.status == BStatus.confirmed) bs b0 hnd hmem
  by_cases h1 : b0.event = eid
  · by_cases h2 : b0.status = BStatus.confirmed
    · simp only [h1, h2] at h ⊢
      simp at h
      simp
      omega
    · simp only [h1] at h ⊢
      have hb2 : (b0.status == BStatus.confirmed) = false := beq_eq_false_iff_ne.mpr h2
      simp [hb2] at h
      simp [h2]
      omega
  · have hb1 : (b0.event == eid) = false := beq_eq_false_iff_ne.mpr h1
    simp [hb1] at h
    simp [h1]
    omega

/-- Confirming one stored waitlisted booking raises the confirmed count of
its event by one and changes no other event's count. -/
theorem confirmedCountAll_promote_le (bs1 : List BookingRec) (c : BookingRec) (eid : Nat)
    (hnd : (bs1.map BookingRec.id).Nodup) (hmem : c ∈ bs1)
    (hw : c.status = BStatus.waitlisted) :
    confirmedCountAll (updateBookingStatus bs1 c.id BStatus.confirmed) eid
      ≤ confirmedCountAll bs1 eid + (if c.event = eid then 1 else 0) := by
  rw [confirmedCountAll_eq_countP, confirmedCountAll_eq_countP]
  have h := countP_updateBookingStatus
      (fun b => b.event == eid && b.status == BStatus.confirmed) bs1 c BStatus.confirmed hnd hmem
  have hwc : (c.status == BStatus.confirmed) = false := by simp [hw]
  by_cases h1 : c.event = eid
  · simp only [h1, hwc] at h ⊢
    simp at h
    simp
    omega
  · have hb1 : (c.event == eid) = false := beq_eq_false_iff_ne.mpr h1
    simp [hb1] at h
    simp [h1]
    omega

/-- A keyed status update preserves id, event and tenant of every record. -/
theorem mem_updateBookingStatus_shape (bs : List BookingRec) (bid : Nat) (st : BStatus)
    (c : BookingRec) (h : c ∈ updateBookingStatus bs bid st) :
    ∃ b ∈ bs, c.id = b.id ∧ c.event = b.event ∧ c.tenant = b.tenant := by
  obtain ⟨b, hb, rfl⟩ := List.mem_map.mp h
  by_cases hid : b.id = bid
  · refine ⟨b, hb, ?_⟩
    rw [if_pos (show (b.id == bid) = true by simp [hid])]
    exact ⟨rfl, rfl, rfl⟩
  · refine ⟨b, hb, ?_⟩
    rw [if_neg (by simp [hid])]
    exact ⟨rfl, rfl, rfl⟩

/-- `findByID` on bookings returns a stored booking carrying the requested
id. -/
theorem findBookingById_spec (bs : List BookingRec) (bid : Nat) (b0 : BookingRec)
    (h : findBookingById bs bid = some b0) : b0 ∈ bs ∧ b0.id = bid := by
  have h2 : bs.find? (fun b => b.id == bid) = some b0 := h
  refine ⟨List.mem_of_find?_eq_some h2, ?_⟩
  have hp := List.find?_some h2
  simpa using hp

/-- A booking-log write touches only the log store. -/
theorem createBookingLog_frame (entry : LogEntry) (s : SysState) :
    (createBookingLog entry s).bookings = s.bookings ∧
    (createBookingLog entry s).events = s.events ∧
    (createBookingLog entry s).nextId = s.nextId := by
  unfold createBookingLog
  split <;> exact ⟨rfl, rfl, rfl⟩

/-- A promotion attempt never touches the event store or the id counter. -/
theorem promote_frame (no : NotifOracle) (eid t : Nat) (s : SysState) :
    (promoteOldestWaitlist no eid t s).1.events = s.events ∧
    (promoteOldestWaitlist no eid t s).1.nextId = s.nextId := by
  unfold promoteOldestWaitlist
  dsimp only
  split
  · exact ⟨rfl, rfl⟩
  · split
    · exact ⟨rfl, rfl⟩
    · exact ⟨(createBookingLog_frame _ _).2.1, (createBookingLog_frame _ _).2.2⟩

/-- The create branch of the afterChange hook touches only notifications. -/
theorem afterChangeCreate_frame (no : NotifOracle) (doc : BookingRec) (s : SysState) :
    (bookingAfterChangeCreate no doc s).bookings = s.bookings ∧
    (bookingAfterChangeCreate no doc s).events = s.events ∧
    (bookingAfterChangeCreate no doc s).nextId = s.nextId := by
  unfold bookingAfterChangeCreate
  dsimp only
  split <;> exact ⟨rfl, rfl, rfl⟩

/-- The create case of afterOperation touches only the log store. -/
theorem afterOperationCreate_frame (doc : BookingRec) (s : SysState) :
    (bookingAfterOperationCreate doc s).bookings = s.bookings ∧
    (bookingAfterOperationCreate doc s).events = s.events ∧
    (bookingAfterOperationCreate doc s).nextId = s.nextId := by
  unfold bookingAfterOperationCreate
  exact createBookingLog_frame _ _

/-- The update branch of the afterChange hook never touches the event
store or the id counter. -/
theorem afterChangeUpdate_frame (no : NotifOracle) (pd doc : BookingRec) (s : SysState) :
    (bookingAfterChangeUpdate no pd doc s).events = s.events ∧
    (bookingAfterChangeUpdate no pd doc s).nextId = s.nextId := by
  unfold bookingAfterChangeUpdate
  split
  · exact ⟨rfl, rfl⟩
  · split
    · dsimp only
      split
      · exact ⟨rfl, rfl⟩
      · exact ⟨(promote_frame _ _ _ _).1, (promote_frame _ _ _ _).2⟩
    · dsimp only
      split <;> exact ⟨rfl, rfl⟩

/-- The afterDelete hook never touches the event store or the id counter. -/
theorem afterDelete_frame (no : NotifOracle) (doc : BookingRec) (s : SysState) :
    (bookingAfterDelete no doc s).events = s.events ∧
    (bookingAfterDelete no doc s).nextId = s.nextId := by
  unfold bookingAfterDelete
  split
  · exact ⟨rfl, rfl⟩
  · dsimp only
    split
    · exact ⟨rfl, rfl⟩
    · exact ⟨(promote_frame _ _ _ _).1, (promote_frame _ _ _ _).2⟩

/-- The delete case of afterOperation touches only the log store. -/
theorem afterOperationDelete_frame (doc : BookingRec) (s : SysState) :
    (bookingAfterOperationDelete doc s).bookings = s.bookings ∧
    (bookingAfterOperationDelete doc s).events = s.events ∧
    (bookingAfterOperationDelete doc s).nextId = s.nextId := by
  unfold bookingAfterOperationDelete
  split <;> exact createBookingLog_frame _ _

/-- The afterDelete hook either leaves the bookings untouched or — for a
confirmed deleted booking — flips exactly one stored waitlisted booking of
its event to Confirmed. -/
theorem afterDelete_bookings_cases (no : NotifOracle) (doc : BookingRec) (s : SysState) :
    (bookingAfterDelete no doc s).bookings = s.bookings ∨
    (doc.status = BStatus.confirmed ∧
      ∃ c, c ∈ s.bookings ∧ c.status = BStatus.waitlisted ∧ c.event = doc.event ∧
        (bookingAfterDelete no doc s).bookings =
          updateBookingStatus s.bookings c.id BStatus.confirmed) := by
  unfold bookingAfterDelete
  split
  · exact Or.inl rfl
  · rename_i hcond
    have hdc : doc.status = BStatus.confirmed := by
      simpa using hcond
    dsimp only
    split
    · exact Or.inl rfl
    · rcases hp : oldestWaitlisted s.bookings doc.event doc.tenant with _ | c
      · exact Or.inl (promote_bookings_none no doc.event doc.tenant _ hp)
      · obtain ⟨hmem, hcand, _⟩ := oldestWaitlisted_spec s.bookings doc.event doc.tenant c hp
        have hc3 : c.event = doc.event ∧ c.status = BStatus.waitlisted := by
          have := hcand
          simp only [isWaitlistCandidate, Bool.and_eq_true, beq_iff_eq] at this
          exact ⟨this.1.1, this.1.2⟩
        exact Or.inr ⟨hdc, c, hmem, hc3.2, hc3.1,
          promote_bookings_eq no doc.event doc.tenant _ c hp⟩

/-- A beforeChange failure leaves the state untouched. -/
theorem createViaHooks_error_state (no : NotifOracle) (u : UserRec) (d : BookingInput)
    (s s1 : SysState) (e : HookError)
    (h : createBookingViaHooks no u d s = (s1, Except.error e)) : s1 = s := by
  unfold createBookingViaHooks at h
  cases hbc : bookingBeforeChange u d s.events s.bookings with
  | error e2 =>
    rw [hbc] at h
    simp only [Prod.mk.injEq, Except.error.injEq] at h
    exact h.1.symm
  | ok bd =>
    rw [hbc] at h
    dsimp only at h
    simp at h

/-- What a successful hook-pipeline create persists: the beforeChange
data under a fresh id and the current time, appended to the store, with
events and the id counter advancing by exactly one. -/
theorem createViaHooks_ok_shape (no : NotifOracle) (u : UserRec) (d : BookingInput)
    (s s1 : SysState) (b : BookingRec)
    (h : createBookingViaHooks no u d s = (s1, Except.ok b)) :
    ∃ bd, bookingBeforeChange u d s.events s.bookings = Except.ok bd ∧
      b = { id := s.nextId, event := bd.event, user := bd.user, tenant := bd.tenant,
            status := bd.status, createdAt := s.now } ∧
      s1.bookings = s.bookings ++ [b] ∧ s1.events = s.events ∧ s1.nextId = s.nextId + 1 := by
  unfold createBookingViaHooks at h
  cases hbc : bookingBeforeChange u d s.events s.bookings with
  | error e =>
    rw [hbc] at h
    simp at h
  | ok bd =>
    rw [hbc] at h
    dsimp only at h
    simp only [Prod.mk.injEq, Except.ok.injEq] at h
    obtain ⟨hs1, hb⟩ := h
    refine ⟨bd, rfl, hb.symm, ?_, ?_, ?_⟩
    · rw [← hs1, (afterOperationCreate_frame _ _).1, (afterChangeCreate_frame _ _ _).1, ← hb]
    · rw [← hs1, (afterOperationCreate_frame _ _).2.1, (afterChangeCreate_frame _ _ _).2.1]
    · rw [← hs1, (afterOperationCreate_frame _ _).2.2, (afterChangeCreate_frame _ _ _).2.2]

/-- What a successful beforeChange returns: the requester's tenant and id
and the capacity-gate status for the referenced, existing event. -/
theorem beforeChange_ok_spec (u : UserRec) (d : BookingInput) (es : List EventRec)
    (bs : List BookingRec) (bd : BookingData)
    (h : bookingBeforeChange u d es bs = Except.ok bd) :
    ∃ ut eid ev, u.tenant = some ut ∧ d.event = some eid ∧ findEventById es eid = some ev ∧
      bd = { event := eid, user := u.id, tenant := ut,
             status := decideStatus (countConfirmedTenant bs eid ut) ev.capacity } := by
  unfold bookingBeforeChange at h
  cases hu : u.tenant with
  | none => rw [hu] at h; cases h
  | some ut =>
    rw [hu] at h
    dsimp only at h
    cases hd : d.event with
    | none => rw [hd] at h; cases h
    | some eid =>
      rw [hd] at h
      dsimp only at h
      cases hf : findEventById es eid with
      | none => rw [hf] at h; cases h
      | some ev =>
        rw [hf] at h
        dsimp only at h
        exact ⟨ut, eid, ev, rfl, rfl, hf, (Except.ok.inj h).symm⟩

/-- The SubmitBooking endpoint either leaves the state untouched or — for
an authenticated requester naming an existing same-tenant event — appends
exactly one booking carrying the capacity-gate status, leaving events
untouched and advancing the id counter by one. -/
theorem bookEvent_state_cases (no : NotifOracle) (u? : Option UserRec) (eid? : Option Nat)
    (s : SysState) :
    (bookEvent no u? eid? s).1 = s ∨
    ∃ u eid ev, u? = some u ∧ eid? = some eid ∧
      findEventById s.events eid = some ev ∧ u.tenant = some ev.tenant ∧
      (bookEvent no u? eid? s).1.bookings = s.bookings ++
        [{ id := s.nextId, event := eid, user := u.id, tenant := ev.tenant,
           status := decideStatus (countConfirmedTenant s.bookings eid ev.tenant) ev.capacity,
           createdAt := s.now }] ∧
      (bookEvent no u? eid? s).1.events = s.events ∧
      (bookEvent no u? eid? s).1.nextId = s.nextId + 1 := by
  unfold bookEvent
  cases u? with
  | none => exact Or.inl rfl
  | some u =>
    cases eid? with
    | none => exact Or.inl rfl
    | some eid =>
      dsimp only
      cases hf : findEventById s.events eid with
      | none => exact Or.inl rfl
      | some ev =>
        dsimp only
        split
        · exact Or.inl rfl
        · rename_i hguard
          have hut : u.tenant = some ev.tenant := by
            simpa using hguard
          split
          · exact Or.inl rfl
          · split
            · rename_i s1 e heq
              rw [createViaHooks_error_state no u _ s s1 e heq]
              exact Or.inl rfl
            · rename_i s1 b heq
              obtain ⟨bd, hbc, hb, hbk, hev, hnx⟩ :=
                createViaHooks_ok_shape no u _ s s1 b heq
              obtain ⟨ut, eid2, ev2, hut2, hde, hf2, hbd⟩ :=
                beforeChange_ok_spec u _ s.events s.bookings bd hbc
              have hde2 : some eid = some eid2 := hde
              obtain rfl : eid2 = eid := (Option.some.inj hde2).symm
              obtain rfl : ut = ev.tenant := by
                rw [hut] at hut2
                exact Option.some.inj hut2.symm
              obtain rfl : ev2 = ev := by
                rw [hf] at hf2
                exact Option.some.inj hf2.symm
              subst hbd
              refine Or.inr ⟨u, eid2, ev2, rfl, rfl, hf, hut, ?_, ?_, ?_⟩
              · dsimp only
                rw [hbk, hb]
              · dsimp only
                exact hev
              · dsimp only
                exact hnx

/-- `cancelBooking` either leaves the state untouched or performs the
status write to Canceled on the found booking, possibly followed — when
that booking was Confirmed — by the promotion of one stored waitlisted
booking of its event; events and the id counter are never touched. -/
theorem cancel_state_cases (no : NotifOracle) (u : UserRec) (bid : Nat) (s : SysState) :
    (cancelBooking no u bid s).1 = s ∨
    ∃ b0, findBookingById s.bookings bid = some b0 ∧
      ((cancelBooking no u bid s).1.bookings
          = updateBookingStatus s.bookings bid BStatus.canceled ∨
        (b0.status = BStatus.confirmed ∧
          ∃ c, c ∈ updateBookingStatus s.bookings bid BStatus.canceled ∧
            c.status = BStatus.waitlisted ∧ c.event = b0.event ∧
            (cancelBooking no u bid s).1.bookings =
              updateBookingStatus (updateBookingStatus s.bookings bid BStatus.canceled) c.id
                BStatus.confirmed)) ∧
      (cancelBooking no u bid s).1.events = s.events ∧
      (cancelBooking no u bid s).1.nextId = s.nextId := by
  unfold cancelBooking
  cases hfb : findBookingById s.bookings bid with
  | none => exact Or.inl rfl
  | some b0 =>
    dsimp only
    split
    · exact Or.inl rfl
    · split
      · exact Or.inl rfl
      · refine Or.inr ⟨b0, rfl, ?_, ?_, ?_⟩
        · rcases afterChangeUpdate_bookings_cases no b0 { b0 with status := BStatus.canceled }
              { s with bookings := updateBookingStatus s.bookings bid BStatus.canceled }
            with hcase | ⟨hpd, _, c, hcm, hcw, hce, hcase⟩
          · exact Or.inl hcase
          · exact Or.inr ⟨hpd, c, hcm, hcw, hce, hcase⟩
        · exact (afterChangeUpdate_frame _ _ _ _).1
        · exact (afterChangeUpdate_frame _ _ _ _).2

/-- `deleteBooking` either leaves the state untouched or removes the found
booking, possibly followed — when that booking was Confirmed — by the
promotion of one remaining waitlisted booking of its event; events and the
id counter are never touched. -/
theorem delete_state_cases (no : NotifOracle) (bid : Nat) (s : SysState) :
    (deleteBooking no bid s).1 = s ∨
    ∃ d0, findBookingById s.bookings bid = some d0 ∧
      ((deleteBooking no bid s).1.bookings
          = s.bookings.filter (fun b => !(b.id == bid)) ∨
        (d0.status = BStatus.confirmed ∧
          ∃ c, c ∈ s.bookings.filter (fun b => !(b.id == bid)) ∧
            c.status = BStatus.waitlisted ∧ c.event = d0.event ∧
            (deleteBooking no bid s).1.bookings =
              updateBookingStatus (s.bookings.filter (fun b => !(b.id == bid))) c.id
                BStatus.confirmed)) ∧
      (deleteBooking no bid s).1.events = s.events ∧
      (deleteBooking no bid s).1.nextId = s.nextId := by
  unfold deleteBooking
  cases hfb : findBookingById s.bookings bid with
  | none => exact Or.inl rfl
  | some d0 =>
    dsimp only
    refine Or.inr ⟨d0, rfl, ?_, ?_, ?_⟩
    · rcases afterDelete_bookings_cases no d0
          { s with bookings := s.bookings.filter (fun b => !(b.id == bid)) }
        with hcase | ⟨hdc, c, hcm, hcw, hce, hcase⟩
      · exact Or.inl (((afterOperationDelete_frame _ _).1).trans hcase)
      · exact Or.inr ⟨hdc, c, hcm, hcw, hce,
          ((afterOperationDelete_frame _ _).1).trans hcase⟩
    · exact ((afterOperationDelete_frame _ _).2.1).trans ((afterDelete_frame _ _ _).1)
    · exact ((afterOperationDelete_frame _ _).2.2).trans ((afterDelete_frame _ _ _).2)

/-- SubmitBooking preserves well-formedness, tenant alignment and the
capacity invariant. -/
theorem submit_good (no : NotifOracle) (u? : Option UserRec) (eid? : Option Nat)
    (s : SysState) (hg : GoodState s) : GoodState (bookEvent no u? eid? s).1 := by
  rcases bookEvent_state_cases no u? eid? s with
    hsame | ⟨u, eid, ev, _, _, hf, hut, hbk, hev, hnx⟩
  · rw [hsame]
    exact hg
  · obtain ⟨⟨hndE, hndB, hfresh⟩, hal, hcap⟩ := hg
    obtain ⟨hevmem, hevid⟩ := findEventById_mem s.events eid ev hf
    refine ⟨⟨?_, ?_, ?_⟩, ?_, ?_⟩
    · rw [hev]
      exact hndE
    · rw [hbk, List.map_append, List.nodup_append]
      refine ⟨hndB, List.nodup_singleton _, ?_⟩
      intro a ha hb
      obtain ⟨b2, hb2mem, rfl⟩ := List.mem_map.mp ha
      have hbid : b2.id = s.nextId := by simpa using hb
      exact absurd hbid (Nat.ne_of_lt (hfresh b2 hb2mem))
    · intro b hb
      rw [hnx]
      rw [hbk] at hb
      rcases List.mem_append.mp hb with h1 | h2
      · exact Nat.lt_succ_of_lt (hfresh b h1)
      · have h3 := List.mem_singleton.mp h2
        rw [h3]
        exact Nat.lt_succ_self _
    · intro e he b hb hbe
      rw [hev] at he
      rw [hbk] at hb
      rcases List.mem_append.mp hb with h1 | h2
      · exact hal e he b h1 hbe
      · have h3 := List.mem_singleton.mp h2
        subst h3
        have heid : eid = e.id := hbe
        have he2 : e = ev := findEventById_unique s.events eid ev e hndE hf he heid.symm
        subst he2
        rfl
    · intro e he
      rw [hev] at he
      rw [hbk, confirmedCountAll_append]
      show confirmedCountAll s.bookings e.id +
          (if eid = e.id ∧ decideStatus (countConfirmedTenant s.bookings eid ev.tenant)
              ev.capacity = BStatus.confirmed then 1 else 0)
        ≤ e.capacity
      by_cases hbe : eid = e.id
      · have he2 : e = ev := findEventById_unique s.events eid ev e hndE hf he hbe.symm
        subst he2
        have halv : ∀ b ∈ s.bookings, b.event = eid → b.tenant = e.tenant := by
          intro b hb hbe2
          exact hal e hevmem b hb (by rw [hbe2, hevid])
        have hcnt : countConfirmedTenant s.bookings eid e.tenant
            = confirmedCountAll s.bookings eid :=
          countConfirmedTenant_eq_all s.bookings eid e.tenant halv
        have hcapv : confirmedCountAll s.bookings eid ≤ e.capacity := by
          have h2 := hcap e hevmem
          rw [hevid] at h2
          exact h2
        by_cases hlt : countConfirmedTenant s.bookings eid e.tenant < e.capacity
        · rw [if_pos ⟨hbe, by simp [decideStatus, hlt]⟩, hevid]
          omega
        · rw [if_neg (fun hc => absurd hc.2 (by simp [decideStatus, hlt])), Nat.add_zero,
            hevid]
          exact hcapv
      · rw [if_neg (fun hc => hbe hc.1), Nat.add_zero]
        exact hcap e he

/-- CancelBooking preserves well-formedness, tenant alignment and the
capacity invariant. -/
theorem cancel_good (no : NotifOracle) (u : UserRec) (bid : Nat) (s : SysState)
    (hg : GoodState s) : GoodState (cancelBooking no u bid s).1 := by
  rcases cancel_state_cases no u bid s with hsame | ⟨b0, hfb, hbkc, hev, hnx⟩
  · rw [hsame]
    exact hg
  · obtain ⟨⟨hndE, hndB, hfresh⟩, hal, hcap⟩ := hg
    obtain ⟨hb0mem, hb0id⟩ := findBookingById_spec s.bookings bid b0 hfb
    have hnd1 : ((updateBookingStatus s.bookings bid BStatus.canceled).map BookingRec.id).Nodup := by
      rw [updateBookingStatus_map_id]
      exact hndB
    have hids : (cancelBooking no u bid s).1.bookings.map BookingRec.id
        = s.bookings.map BookingRec.id := by
      rcases hbkc with h1 | ⟨_, c, _, _, _, h2⟩
      · rw [h1, updateBookingStatus_map_id]
      · rw [h2, updateBookingStatus_map_id, updateBookingStatus_map_id]
    refine ⟨⟨?_, ?_, ?_⟩, ?_, ?_⟩
    · rw [hev]
      exact hndE
    · rw [hids]
      exact hndB
    · intro b hb
      rw [hnx]
      have hin : b.id ∈ (cancelBooking no u bid s).1.bookings.map BookingRec.id :=
        List.mem_map_of_mem BookingRec.id hb
      rw [hids] at hin
      obtain ⟨b2, hb2, hbeq⟩ := List.mem_map.mp hin
      rw [← hbeq]
      exact hfresh b2 hb2
    · intro e he b hb hbe
      rw [hev] at he
      have hshape : ∃ b2 ∈ s.bookings, b.event = b2.event ∧ b.tenant = b2.tenant := by
        rcases hbkc with h1 | ⟨_, c, _, _, _, h2⟩
        · rw [h1] at hb
          obtain ⟨b2, hb2, _, hbe2, hbt2⟩ := mem_updateBookingStatus_shape _ _ _ b hb
          exact ⟨b2, hb2, hbe2, hbt2⟩
        · rw [h2] at hb
          obtain ⟨b3, hb3, _, hbe3, hbt3⟩ := mem_updateBookingStatus_shape _ _ _ b hb
          obtain ⟨b2, hb2, _, hbe2, hbt2⟩ := mem_updateBookingStatus_shape _ _ _ b3 hb3
          exact ⟨b2, hb2, hbe3.trans hbe2, hbt3.trans hbt2⟩
      obtain ⟨b2, hb2, hbe2, hbt2⟩ := hshape
      rw [hbt2]
      exact hal e he b2 hb2 (by rw [← hbe2, hbe])
    · intro e he
      rw [hev] at he
      have hcape := hcap e he
      have hbase := confirmedCountAll_cancel_update s.bookings b0 e.id hndB hb0mem
      rw [hb0id] at hbase
      rcases hbkc with h1 | ⟨hconf, c, hcm, hcw, hce, h2⟩
      · rw [h1]
        omega
      · rw [h2]
        have hprom := confirmedCountAll_promote_le
          (updateBookingStatus s.bookings bid BStatus.canceled) c e.id hnd1 hcm hcw
        by_cases hbe : b0.event = e.id
        · have hb0c : (if b0.event = e.id ∧ b0.status = BStatus.confirmed then 1 else 0)
              = 1 := by
            simp [hbe, hconf]
          have hcev : (if c.event = e.id then 1 else 0) = 1 := by
            simp [hce, hbe]
          omega
        · have hb0c : (if b0.event = e.id ∧ b0.status = BStatus.confirmed then 1 else 0)
              = 0 := by
            simp [hbe]
          have hcev : (if c.event = e.id then 1 else 0) = 0 := by
            simp [hce, hbe]
          omega

/-- Booking deletion preserves well-formedness, tenant alignment and the
capacity invariant. -/
theorem delete_good (no : NotifOracle) (bid : Nat) (s : SysState)
    (hg : GoodState s) : GoodState (deleteBooking no bid s).1 := by
  rcases delete_state_cases no bid s with hsame | ⟨d0, hfb, hbkc, hev, hnx⟩
  · rw [hsame]
    exact hg
  · obtain ⟨⟨hndE, hndB, hfresh⟩, hal, hcap⟩ := hg
    obtain ⟨hd0mem, hd0id⟩ := findBookingById_spec s.bookings bid d0 hfb
    have hsubF : ((s.bookings.filter (fun b => !(b.id == bid))).map BookingRec.id).Sublist
        (s.bookings.map BookingRec.id) :=
      (s.bookings.filter_sublist).map BookingRec.id
    have hnd1 : ((s.bookings.filter (fun b => !(b.id == bid))).map BookingRec.id).Nodup :=
      hndB.sublist hsubF
    refine ⟨⟨?_, ?_, ?_⟩, ?_, ?_⟩
    · rw [hev]
      exact hndE
    · rcases hbkc with h1 | ⟨_, c, _, _, _, h2⟩
      · rw [h1]
        exact hnd1
      · rw [h2, updateBookingStatus_map_id]
        exact hnd1
    · intro b hb
      rw [hnx]
      have hshape : ∃ b2 ∈ s.bookings, b.id = b2.id := by
        rcases hbkc with h1 | ⟨_, c, _, _, _, h2⟩
        · rw [h1] at hb
          exact ⟨b, List.mem_of_mem_filter hb, rfl⟩
        · rw [h2] at hb
          obtain ⟨b3, hb3, hid3, _, _⟩ := mem_updateBookingStatus_shape _ _ _ b hb
          exact ⟨b3, List.mem_of_mem_filter hb3, hid3⟩
      obtain ⟨b2, hb2, hbeq⟩ := hshape
      rw [hbeq]
      exact hfresh b2 hb2
    · intro e he b hb hbe
      rw [hev] at he
      have hshape : ∃ b2 ∈ s.bookings, b.event = b2.event ∧ b.tenant = b2.tenant := by
        rcases hbkc with h1 | ⟨_, c, _, _, _, h2⟩
        · rw [h1] at hb
          exact ⟨b, List.mem_of_mem_filter hb, rfl, rfl⟩
        · rw [h2] at hb
          obtain ⟨b3, hb3, _, hbe3, hbt3⟩ := mem_updateBookingStatus_shape _ _ _ b hb
          exact ⟨b3, List.mem_of_mem_filter hb3, hbe3, hbt3⟩
      obtain ⟨b2, hb2, hbe2, hbt2⟩ := hshape
      rw [hbt2]
      exact hal e he b2 hb2 (by rw [← hbe2, hbe])
    · intro e he
      rw [hev] at he
      have hcape := hcap e he
      have hbase := confirmedCountAll_remove s.bookings d0 e.id hndB hd0mem
      rw [hd0id] at hbase
      rcases hbkc with h1 | ⟨hconf, c, hcm, hcw, hce, h2⟩
      · rw [h1]
        omega
      · rw [h2]
        have hprom := confirmedCountAll_promote_le
          (s.bookings.filter (fun b => !(b.id == bid))) c e.id hnd1 hcm hcw
        by_cases hbe : d0.event = e.id
        · have hd0c : (if d0.event = e.id ∧ d0.status = BStatus.confirmed then 1 else 0)
              = 1 := by
            simp [hbe, hconf]
          have hcev : (if c.event = e.id then 1 else 0) = 1 := by
            simp [hce, hbe]
          omega
        · have hd0c : (if d0.event = e.id ∧ d0.status = BStatus.confirmed then 1 else 0)
              = 0 := by
            simp [hbe]
          have hcev : (if c.event = e.id then 1 else 0) = 0 := by
            simp [hce, hbe]
          omega

/-- Every single operation preserves the good-state conjunction. -/
theorem applyOper_good (no : NotifOracle) (s : SysState) (op : Oper)
    (hg : GoodState s) : GoodState (applyOper no s op) := by
  cases op with
  | submit u eid => exact submit_good no (some u) eid s hg
  | cancel u bid => exact cancel_good no u bid s hg
  | delete bid => exact delete_good no bid s hg

/-- Every operation sequence preserves the good-state conjunction. -/
theorem runOpers_good (no : NotifOracle) (l : List Oper) :
    ∀ s : SysState, GoodState s → GoodState (runOpers no s l) := by
  induction l with
  | nil =>
    intro s hg
    exact hg
  | cons op l ih =>
    intro s hg
    exact ih (applyOper no s op) (applyOper_good no s op hg)

/-- C1 (amended): for every event, the number of Confirmed bookings
referencing it stays at or below its capacity across every sequence of
SubmitBooking, CancelBooking and deletion operations, provided the initial
state is well-formed (unique ids, fresh id counter) and tenant-aligned in
addition to satisfying the invariant.  From a state satisfying the
capacity invariant alone the property fails (see the counterexample): the
admission gate counts confirmed bookings tenant-scoped
(src/collections/Users.ts:539-549) while the invariant counts them across
tenants, so a same-event booking stored under another tenant escapes the
gate. -/
theorem C1_capacity_preserved (no : NotifOracle) (s : SysState) (l : List Oper)
    (hwf : StateWF s) (hal : TenantAligned s) (hcap : CapacityInv s) :
    CapacityInv (runOpers no s l) :=
  (runOpers_good no l s ⟨hwf, hal, hcap⟩).2.2

/-- Witness for C1: from the empty capacity-2 store, three submissions and
a cancellation keep the invariant. -/
theorem C1_witness :
    CapacityInv (runOpers allOk scenario0
      [Oper.submit exUserA (some 0), Oper.submit exUserB (some 0),
       Oper.submit exUserC (some 0), Oper.cancel exUserA 100]) :=
  C1_capacity_preserved allOk scenario0
    [Oper.submit exUserA (some 0), Oper.submit exUserB (some 0),
     Oper.submit exUserC (some 0), Oper.cancel exUserA 100]
    ⟨by decide, by decide, by decide⟩
    (show ∀ e ∈ scenario0.events, ∀ b ∈ scenario0.bookings,
        b.event = e.id → b.tenant = e.tenant by decide)
    (show ∀ e ∈ scenario0.events,
        confirmedCountAll scenario0.bookings e.id ≤ e.capacity by decide)

/-- Counterexample to C1 as stated: `exMisState` satisfies the capacity
invariant (one confirmed booking, capacity 1), yet one SubmitBooking
admits a second Confirmed booking for the same event, because the gate
counts confirmed bookings tenant-scoped and the stored booking carries
another tenant. -/
theorem C1_counterexample :
    (∀ e ∈ exMisState.events, confirmedCountAll exMisState.bookings e.id ≤ e.capacity) ∧
    ¬ CapacityInv (runOpers allOk exMisState [Oper.submit exUserA (some 0)]) := by
  constructor
  · decide
  · intro hc
    exact absurd (hc exMisEvent (by decide)) (by decide)
